import Mathlib

/-!
# simple-proxy: a verification development for `proxy/proxy.go`

A shallow embedding of the proxy handler of `src/proxy/proxy.go`.

* A Go `string` is its sequence of bytes: `GoString := List Nat`, a byte being a
  natural number below 256 (`IsBytes`).  Byte arithmetic is reduced `% 256`.
* Functions of the Go standard library that the handler calls
  (`base64.StdEncoding`, `http.Header`, `http.Error`, `io.Copy`, the
  `http.ResponseWriter` contract) are modelled next to the code that calls them;
  each such definition says so in its doc comment.
* Effects on connections and the dispatch to the two handlers are recorded as a
  list of `Event`s; the response writer is an explicit state.
* The `fmt.Fprintf` lines that go to `os.Stdout` and `os.Stderr` touch neither
  the response writer, the request nor any connection and are left out of the
  trace.
-/

namespace Proxy

/-! ## Strings and bytes -/

/-- A Go string: a sequence of bytes. -/
abbrev GoString := List Nat

/-- Every element is a byte. -/
def IsBytes (s : GoString) : Prop := ∀ b ∈ s, b < 256

instance (s : GoString) : Decidable (IsBytes s) := by
  unfold IsBytes; infer_instance

/-- The bytes of an ASCII string literal. -/
def lit (s : String) : GoString := s.toList.map Char.toNat

/-! ## `lower` and `equalFold` (proxy.go, lines 146-166) -/

/-- Go `lower`: the ASCII lowercase version of the byte `b`. -/
def lower (b : Nat) : Nat :=
  if 65 ≤ b ∧ b ≤ 90 then (b + (97 - 65)) % 256 else b

/-- The loop of `equalFold`, run over two strings of the same length. -/
def equalFoldLoop : GoString → GoString → Bool
  | a :: s, b :: t => if lower a ≠ lower b then false else equalFoldLoop s t
  | _, _ => true

/-- Go `equalFold`: ASCII case-insensitive equality of two strings. -/
def equalFold (s t : GoString) : Bool :=
  if s.length ≠ t.length then false else equalFoldLoop s t

/-! ## `encoding/base64`, `StdEncoding` (Go standard library) -/

/-- The alphabet of `base64.StdEncoding`. -/
def encodeStd : GoString :=
  lit "ABCDEFGHIJKLMNOPQRSTUVWXYZabcdefghijklmnopqrstuvwxyz0123456789+/"

/-- The padding character `=` of `base64.StdEncoding`. -/
def padChar : Nat := 61

/-- The character that encodes the 6-bit digit `v`. -/
def encodeDigit (v : Nat) : Nat := encodeStd.getD v 0

/-- The decode map of the standard alphabet: the digit of a character of the
alphabet, `none` (Go: `0xff`) for every other byte. -/
def decodeMap (c : Nat) : Option Nat :=
  let i := encodeStd.indexOf c
  if i < 64 then some i else none

/-- Library `(*Encoding).EncodeToString` for `StdEncoding`: three bytes become
four digits, a last group of one or two bytes is padded with `=`.  The bitwise
or of Go joins bytes shifted to disjoint positions, which is their sum. -/
def encodeToString : GoString → GoString
  | b0 :: b1 :: b2 :: rest =>
    let val := b0 * 65536 + b1 * 256 + b2
    encodeDigit (val / 262144 % 64) :: encodeDigit (val / 4096 % 64) ::
      encodeDigit (val / 64 % 64) :: encodeDigit (val % 64) :: encodeToString rest
  | [b0, b1] =>
    let val := b0 * 65536 + b1 * 256
    [encodeDigit (val / 262144 % 64), encodeDigit (val / 4096 % 64),
      encodeDigit (val / 64 % 64), padChar]
  | [b0] =>
    let val := b0 * 65536
    [encodeDigit (val / 262144 % 64), encodeDigit (val / 4096 % 64), padChar, padChar]
  | [] => []

/-- Skip the carriage returns and line feeds at the head of the input. -/
def skipNewlines : GoString → GoString
  | c :: rest => if c = 10 ∨ c = 13 then skipNewlines rest else c :: rest
  | [] => []

/-- The bytes of one quantum of `dbuf.length` digits (2, 3 or 4): the digits
are joined into a 24-bit value, of which the first `dbuf.length - 1` bytes are
kept.  The decoder is not strict: the unused low bits are not checked. -/
def quantumBytes (dbuf : List Nat) : GoString :=
  let val := dbuf.getD 0 0 * 262144 + dbuf.getD 1 0 * 4096 + dbuf.getD 2 0 * 64 + dbuf.getD 3 0
  [val / 65536 % 256, val / 256 % 256, val % 256].take (dbuf.length - 1)

/-- Library `(*Encoding).Decode` for `StdEncoding`, as the repetition of
`decodeQuantum`; `dbuf` holds the digits of the current quantum.  Line feeds
and carriage returns are skipped, any other byte outside the alphabet is an
error, an input that ends inside a quantum is an error, padding is accepted
after two digits (`==`) or three (`=`), and only line breaks may follow it. -/
def decodeFrom (dbuf : List Nat) : GoString → Option GoString
  | [] => if dbuf = [] then some [] else none
  | c :: rest =>
    match decodeMap c with
    | some d =>
      if dbuf.length = 3 then
        (decodeFrom [] rest).map (fun out => quantumBytes (dbuf ++ [d]) ++ out)
      else decodeFrom (dbuf ++ [d]) rest
    | none =>
      if c = 10 ∨ c = 13 then decodeFrom dbuf rest
      else if c ≠ padChar then none
      else if dbuf.length < 2 then none
      else if dbuf.length = 2 then
        match skipNewlines rest with
        | [] => none
        | c2 :: rest2 =>
          if c2 ≠ padChar then none
          else if skipNewlines rest2 = [] then some (quantumBytes dbuf) else none
      else if skipNewlines rest = [] then some (quantumBytes dbuf) else none

/-- Library `base64.StdEncoding.DecodeString`: the decoded bytes, or `none`
when Go returns a non-nil error. -/
def decodeString (s : GoString) : Option GoString := decodeFrom [] s

/-! ## `parseBasicAuth` (proxy.go, lines 117-144) -/

/-- The constant `prefix` of `parseBasicAuth`: the bytes of `Basic` and a space. -/
def basicPrefix : GoString := lit "Basic "

/-- The search loop of `parseBasicAuth`: starting at index `i` with `s = -1`,
the index of the first `:` of the rest of the string, or `-1`. -/
def colonLoop : GoString → Nat → Int
  | [], _ => -1
  | c :: rest, i => if c = 58 then (i : Int) else colonLoop rest (i + 1)

/-- Go `parseBasicAuth`: `(username, password, ok)`; the named results keep
their zero values on every early `return`. -/
def parseBasicAuth (auth : GoString) : GoString × GoString × Bool :=
  if auth.length < basicPrefix.length ∨
      !equalFold (auth.take basicPrefix.length) basicPrefix then ([], [], false)
  else
    match decodeString (auth.drop basicPrefix.length) with
    | none => ([], [], false)
    | some cs =>
      let s := colonLoop cs 0
      if s < 0 then ([], [], false)
      else (cs.take s.toNat, cs.drop (s.toNat + 1), true)

/-! ## `http.Header` (Go standard library) -/

/-- A Go `http.Header`, a `map[string][]string`: its entries, one per key.
The order of the list is the order in which a `range` visits the map. -/
abbrev Header := List (GoString × List GoString)

/-- The keys of a map are pairwise different. -/
def Header.WF (h : Header) : Prop := (h.map Prod.fst).Nodup

instance (h : Header) : Decidable (Header.WF h) := by
  unfold Header.WF; infer_instance

/-- Go `h[k]`: the value list stored at `k`, nil when the key is absent. -/
def Header.index : Header → GoString → List GoString
  | [], _ => []
  | (k2, vs) :: rest, k => if k2 = k then vs else Header.index rest k

/-- Go `h[k] = vs`. -/
def Header.store : Header → GoString → List GoString → Header
  | [], k, vs => [(k, vs)]
  | (k2, vs2) :: rest, k, vs =>
    if k2 = k then (k, vs) :: rest else (k2, vs2) :: Header.store rest k vs

/-- Go `delete(h, k)`. -/
def Header.delete (h : Header) (k : GoString) : Header :=
  h.filter (fun e => decide (e.1 ≠ k))

/-- Library `validHeaderFieldByte`: the token characters of RFC 7230, that is
letters, digits and the punctuation of the list. -/
def validHeaderFieldByte (c : Nat) : Bool :=
  decide ((48 ≤ c ∧ c ≤ 57) ∨ (65 ≤ c ∧ c ≤ 90) ∨ (97 ≤ c ∧ c ≤ 122) ∨
    c ∈ [33, 35, 36, 37, 38, 39, 42, 43, 45, 46, 94, 95, 96, 124, 126])

/-- The case loop of the library `canonicalMIMEHeaderKey`: the first letter and
every letter after a hyphen upper case, every other letter lower case. -/
def canonicalCase : Bool → GoString → GoString
  | _, [] => []
  | upper, c :: rest =>
    let c2 :=
      if upper = true ∧ 97 ≤ c ∧ c ≤ 122 then c - 32
      else if upper = false ∧ 65 ≤ c ∧ c ≤ 90 then c + 32
      else c
    c2 :: canonicalCase (decide (c2 = 45)) rest

/-- Library `textproto.CanonicalMIMEHeaderKey`: a key with a byte that is not a
token character is returned unchanged, every other key in canonical case. -/
def CanonicalMIMEHeaderKey (s : GoString) : GoString :=
  if s.all validHeaderFieldByte then canonicalCase true s else s

/-- Library `Header.Get`: the first value of the canonical key, the empty
string when there is none. -/
def Header.Get (h : Header) (key : GoString) : GoString :=
  match Header.index h (CanonicalMIMEHeaderKey key) with
  | [] => []
  | v :: _ => v

/-- Library `Header.Set`: the canonical key gets the single value. -/
def Header.Set (h : Header) (key value : GoString) : Header :=
  Header.store h (CanonicalMIMEHeaderKey key) [value]

/-- Library `Header.Add`: the value is appended to the list of the canonical key. -/
def Header.Add (h : Header) (key value : GoString) : Header :=
  Header.store h (CanonicalMIMEHeaderKey key)
    (Header.index h (CanonicalMIMEHeaderKey key) ++ [value])

/-- Library `Header.Del`. -/
def Header.Del (h : Header) (key : GoString) : Header :=
  Header.delete h (CanonicalMIMEHeaderKey key)

/-! ## `copyHeader` (proxy.go, lines 101-107) -/

/-- Go `copyHeader`: every value of every entry of `src`, in the order in which
the `range` visits `src`, is added to `dst`. -/
def copyHeader (dst src : Header) : Header :=
  src.foldl (fun d kv => kv.2.foldl (fun d2 v => Header.Add d2 kv.1 v) d) dst

/-! ## Connections, events, `io.Copy` -/

/-- The two connections of a tunnel: `dest_conn`, opened by the dial, and
`client_conn`, taken from the response writer by `Hijack`. -/
inductive Conn
  | upstream
  | client
  deriving DecidableEq, Repr

/-- The effects the handler has outside the response writer. -/
inductive Event
  | enterTunneling (timeout : Int)
  | enterHTTP
  | dial (host : GoString) (timeout : Int)
  | hijack
  | goTransfer (destination source : Option Conn)
  | roundTrip
  | write (c : Conn) (chunk : GoString)
  | close (c : Conn)
  | closeBody
  | panicked
  deriving DecidableEq, Repr

/-- The error of a `Read`: end of stream or a failure. -/
inductive ReadErr
  | eof
  | failure
  deriving DecidableEq, Repr

/-- What one `Read` returns: the bytes read and the error, if any. -/
structure ReadResult where
  chunk : GoString
  err : Option ReadErr
  deriving DecidableEq, Repr

/-- Library `io.Copy(dst, src)`.  `reads` lists what the successive `Read`s of
`src` return (a source that has no more to say returns end of stream) and
`writes` what the successive `Write`s of `dst` do: `none` when the whole chunk
is written, `some nw` when the write fails or is short after `nw` bytes (no
entry: the write succeeds).  The result is the chunks that reached `dst` and
whether `io.Copy` returned an error. -/
def ioCopy : List ReadResult → List (Option Nat) → List GoString × Bool
  | [], _ => ([], false)
  | r :: rs, ws =>
    if r.chunk ≠ [] then
      match ws with
      | some nw :: _ => ([r.chunk.take (if r.chunk.length < nw then 0 else nw)], true)
      | _ =>
        match r.err with
        | some ReadErr.eof => ([r.chunk], false)
        | some ReadErr.failure => ([r.chunk], true)
        | none => (r.chunk :: (ioCopy rs ws.tail).1, (ioCopy rs ws.tail).2)
    else
      match r.err with
      | some ReadErr.eof => ([], false)
      | some ReadErr.failure => ([], true)
      | none => ioCopy rs ws

/-! ## `transfer` (proxy.go, lines 81-85) -/

/-- Go `transfer`: the copy, then the deferred calls in reverse order of their
registration: `source.Close()` first, `destination.Close()` second. -/
def transfer (destination source : Conn) (reads : List ReadResult)
    (writes : List (Option Nat)) : List Event :=
  (ioCopy reads writes).1.map (Event.write destination) ++
    [Event.close source, Event.close destination]

/-- The trace of two goroutines that run side by side: the schedule says whose
step comes next (`true`: the first); a goroutine that has returned leaves the
rest to the other one, and so does a schedule that has ended. -/
def interleave {α : Type} : List Bool → List α → List α → List α
  | _, [], ys => ys
  | _, x :: xs, [] => x :: xs
  | [], x :: xs, y :: ys => (x :: xs) ++ (y :: ys)
  | true :: s, x :: xs, y :: ys => x :: interleave s xs (y :: ys)
  | false :: s, x :: xs, y :: ys => y :: interleave s (x :: xs) ys

/-- The event is a call of `Close`. -/
def Event.isClose : Event → Bool
  | Event.close _ => true
  | _ => false

/-- The event is a write of copied bytes. -/
def Event.isWrite : Event → Bool
  | Event.write _ _ => true
  | _ => false

/-- How often `Close` is called on `c` in a trace. -/
def closeCount (c : Conn) (t : List Event) : Nat := t.count (Event.close c)

/-! ## The response writer (`http.ResponseWriter`, Go standard library) -/

/-- The state of a response writer.  `header` is the map `w.Header()` returns;
`sent` is the status code and the header map of the first `WriteHeader`, `none`
while no header was written; `body` is what was written; `hijacker` is `none`
when `w` is not an `http.Hijacker`, and else what `Hijack()` returns: `none`
for the client connection, `some e` for the error `e` (and a nil connection). -/
structure ResponseWriter where
  header : Header
  sent : Option (Nat × Header)
  body : GoString
  hijacker : Option (Option GoString)
  deriving DecidableEq, Repr

/-- Library `checkWriteHeaderCode`: the status codes on which `WriteHeader`
does not panic, the three-digit codes from 100 on. -/
def checkWriteHeaderCode (code : Nat) : Bool := decide (100 ≤ code ∧ code ≤ 999)

/-- The codes `WriteHeader` records as the status of the response: 101 and the
codes 200 to 999.  The other 1xx codes are informational: they are sent at
once and the header of the response is still to be written. -/
def finalStatusCode (code : Nat) : Bool :=
  decide (code = 101 ∨ (200 ≤ code ∧ code ≤ 999))

/-- Library `WriteHeader` panics: this happens when no header was written yet
and the code does not pass `checkWriteHeaderCode`.  (A call after the header
was written returns before the check.) -/
def ResponseWriter.WriteHeaderPanics (w : ResponseWriter) (code : Nat) : Bool :=
  w.sent.isNone && !checkWriteHeaderCode code

/-- Library `WriteHeader`, the state it leaves: the first call with a final
status code sends this code with the header map as it is then; a call after
that changes nothing, and neither does a call with an informational code or
one that panics (see `WriteHeaderPanics`). -/
def ResponseWriter.WriteHeader (w : ResponseWriter) (code : Nat) : ResponseWriter :=
  match w.sent with
  | some _ => w
  | none => if finalStatusCode code then { w with sent := some (code, w.header) } else w

/-- Library `Write`: writes status 200 first when no header was written. -/
def ResponseWriter.Write (w : ResponseWriter) (p : GoString) : ResponseWriter :=
  { w.WriteHeader 200 with body := (w.WriteHeader 200).body ++ p }

/-- The status code of the response, once a header was written. -/
def ResponseWriter.status (w : ResponseWriter) : Option Nat := w.sent.map Prod.fst

/-- Library `http.Error`: sets the content headers, writes the status code and
prints the text and a line feed to the body.  The handler calls it with the
codes 407, 500 and 503 only, on which `WriteHeader` does not panic. -/
def httpError (w : ResponseWriter) (error : GoString) (code : Nat) : ResponseWriter :=
  let h1 := Header.Del w.header (lit "Content-Length")
  let h2 := Header.Set h1 (lit "Content-Type") (lit "text/plain; charset=utf-8")
  let h3 := Header.Set h2 (lit "X-Content-Type-Options") (lit "nosniff")
  (({ w with header := h3 }).WriteHeader code).Write (error ++ [10])

/-! ## Requests, responses and the handler (proxy.go, lines 14-115) -/

/-- The fields of `http.Request` the handler reads. -/
structure Request where
  Method : GoString
  Host : GoString
  RemoteAddr : GoString
  Hdr : Header
  deriving DecidableEq, Repr

/-- The fields of `http.Response` the handler reads; `Body` lists what the
successive `Read`s of the body return. -/
structure Response where
  StatusCode : Nat
  Hdr : Header
  Body : List ReadResult
  deriving DecidableEq, Repr

/-- What lies outside the handler: `dial host timeout` is the error of
`net.DialTimeout("tcp", host, timeout)`, `none` when the connection was opened;
`roundTrip` is `http.DefaultTransport.RoundTrip`; `clientWrites` says what the
successive writes of the response body do (see `ioCopy`). -/
structure World where
  dial : GoString → Int → Option GoString
  roundTrip : Request → Except GoString Response
  clientWrites : List (Option Nat)

/-- Go `ProxyHandler`; a nil `*string` is `none`, a duration is a number of
nanoseconds. -/
structure ProxyHandler where
  Timeout : Int
  Username : Option GoString
  Password : Option GoString
  LogAuth : Bool
  LogHeaders : Bool
  deriving DecidableEq, Repr

/-- A signed 64-bit integer: the value reduced modulo `2^64` into
`[-2^63, 2^63)`. -/
def wrapInt64 (x : Int) : Int := (x + 2 ^ 63) % 2 ^ 64 - 2 ^ 63

/-- Go `NewProxyHandler`: `time.Second` is `10^9` nanoseconds and the product
is an `int64` product. -/
def NewProxyHandler (timeoutSeconds : Int) : ProxyHandler :=
  { Timeout := wrapInt64 (timeoutSeconds * 1000000000)
    Username := none
    Password := none
    LogAuth := false
    LogHeaders := false }

/-- Go `handleTunneling`.  After the error of `Hijack` there is no `return`:
the two relays are started with the nil client connection.  `WriteHeader` is
called with the code 200, on which it does not panic. -/
def handleTunneling (env : World) (w : ResponseWriter) (r : Request) (timeout : Int) :
    ResponseWriter × List Event :=
  match env.dial r.Host timeout with
  | some err =>
    (httpError w err 503, [Event.enterTunneling timeout, Event.dial r.Host timeout])
  | none =>
    let w1 := w.WriteHeader 200
    match w1.hijacker with
    | none =>
      (httpError w1 (lit "Hijacking not supported") 500,
        [Event.enterTunneling timeout, Event.dial r.Host timeout])
    | some (some err) =>
      (httpError w1 err 503,
        [Event.enterTunneling timeout, Event.dial r.Host timeout, Event.hijack,
          Event.goTransfer (some Conn.upstream) none,
          Event.goTransfer none (some Conn.upstream)])
    | some none =>
      (w1,
        [Event.enterTunneling timeout, Event.dial r.Host timeout, Event.hijack,
          Event.goTransfer (some Conn.upstream) (some Conn.client),
          Event.goTransfer (some Conn.client) (some Conn.upstream)])

/-- Go `handleHTTP`.  The deferred `resp.Body.Close()` runs when the function
returns after a round trip that gave a response, and also when
`w.WriteHeader(resp.StatusCode)` panics on a status code that the library
refuses: then nothing is copied and the panic leaves the function. -/
def handleHTTP (env : World) (w : ResponseWriter) (req : Request) :
    ResponseWriter × List Event :=
  match env.roundTrip req with
  | Except.error err => (httpError w err 503, [Event.enterHTTP, Event.roundTrip])
  | Except.ok resp =>
    let w1 := { w with header := copyHeader w.header resp.Hdr }
    if w1.WriteHeaderPanics resp.StatusCode then
      (w1, [Event.enterHTTP, Event.roundTrip, Event.panicked, Event.closeBody])
    else
      let w2 := w1.WriteHeader resp.StatusCode
      let w3 := (ioCopy resp.Body env.clientWrites).1.foldl ResponseWriter.Write w2
      (w3, [Event.enterHTTP, Event.roundTrip, Event.closeBody])

/-- Go `proxyBasicAuth`. -/
def proxyBasicAuth (r : Request) : GoString × GoString × Bool :=
  let auth := Header.Get r.Hdr (lit "Proxy-Authorization")
  if auth = [] then ([], [], false) else parseBasicAuth auth

/-- The condition of the auth gate of `ServeHTTP` (lines 37-39): credentials
are configured and the request does not carry them. -/
def unauthorized (p : ProxyHandler) (r : Request) : Bool :=
  match p.Username, p.Password with
  | some u, some pw =>
    let res := proxyBasicAuth r
    !res.2.2 || decide (res.1 ≠ u) || decide (res.2.1 ≠ pw)
  | _, _ => false

/-- Go `ProxyHandler.ServeHTTP`. -/
def ProxyHandler.ServeHTTP (p : ProxyHandler) (env : World) (w : ResponseWriter) (r : Request) :
    ResponseWriter × List Event :=
  if unauthorized p r then
    (httpError { w with header := Header.Set w.header (lit "Proxy-Authenticate") (lit "Basic") }
      (lit "Unauthorized") 407, [])
  else if r.Method = lit "CONNECT" then handleTunneling env w r p.Timeout
  else handleHTTP env w r

/-! ## Notions used to state the claims -/

/-- The bytes a reader delivers: the chunks of its successive reads, up to and
with the first read that returns an error (end of stream or a failure). -/
def streamBytes : List ReadResult → GoString
  | [] => []
  | r :: rs =>
    match r.err with
    | none => r.chunk ++ streamBytes rs
    | some _ => r.chunk

/-- The event marks the entry of one of the two handlers. -/
def Event.isEnter : Event → Bool
  | Event.enterTunneling _ => true
  | Event.enterHTTP => true
  | _ => false

/-- The event starts a relay. -/
def Event.isGoTransfer : Event → Bool
  | Event.goTransfer _ _ => true
  | _ => false

/-- The folding of the claim on `equalFold`, in its words: a byte from `A` to
`Z` is mapped to the byte from `a` to `z`, every other byte is unchanged. -/
def asciiFoldSpec (b : Nat) : Nat :=
  if 65 ≤ b ∧ b ≤ 90 then b + 32 else b

/-! ## Concrete inputs -/

/-- A response writer on which nothing was set or written; `hj` says what its
`Hijack` does (see `ResponseWriter`). -/
def freshWriter (hj : Option (Option GoString)) : ResponseWriter :=
  { header := [], sent := none, body := [], hijacker := hj }

/-- A world in which every dial succeeds and every round trip is refused. -/
def openWorld : World :=
  { dial := fun _ _ => none
    roundTrip := fun _ => Except.error (lit "connection refused")
    clientWrites := [] }

/-- A world in which no host can be reached. -/
def closedWorld : World :=
  { dial := fun _ _ => some (lit "dial tcp: i/o timeout")
    roundTrip := fun _ => Except.error (lit "connection refused")
    clientWrites := [] }

/-- A world whose destination answers every request with `resp`. -/
def replyWorld (resp : Response) : World :=
  { dial := fun _ _ => none
    roundTrip := fun _ => Except.ok resp
    clientWrites := [] }

/-- A handler that asks for the credentials of the doc comment of
`parseBasicAuth`. -/
def aladdinHandler : ProxyHandler :=
  { Timeout := 5000000000
    Username := some (lit "Aladdin")
    Password := some (lit "open sesame")
    LogAuth := false
    LogHeaders := false }

/-- A request with the given method and `Proxy-Authorization` values. -/
def requestWith (method : GoString) (auth : List GoString) : Request :=
  { Method := method
    Host := lit "example.com:443"
    RemoteAddr := lit "10.0.0.1:5000"
    Hdr := [(lit "Proxy-Authorization", auth)] }

/-- A response with status 404, a repeated `Set-Cookie` header and a body that
arrives in two reads. -/
def sampleResponse : Response :=
  { StatusCode := 404
    Hdr := [(lit "Set-Cookie", [lit "a=1", lit "b=2"]), (lit "Content-Type", [lit "text/plain"])]
    Body := [{ chunk := lit "not ", err := none }, { chunk := lit "found", err := some ReadErr.eof }] }

/-! ## Lemmas on the base64 codec -/

theorem decodeMap_encodeDigit : ∀ v, v < 64 → decodeMap (encodeDigit v) = some v := by
  decide

theorem decodeMap_padChar : decodeMap padChar = none := by decide

theorem quantumBytes_four (b0 b1 b2 : Nat) (h0 : b0 < 256) (h1 : b1 < 256) (h2 : b2 < 256) :
    quantumBytes [(b0 * 65536 + b1 * 256 + b2) / 262144 % 64,
      (b0 * 65536 + b1 * 256 + b2) / 4096 % 64,
      (b0 * 65536 + b1 * 256 + b2) / 64 % 64,
      (b0 * 65536 + b1 * 256 + b2) % 64] = [b0, b1, b2] := by
  simp only [quantumBytes, List.getD_cons_zero, List.getD_cons_succ, List.length_cons,
    List.length_nil]
  simp only [List.take, List.cons.injEq, and_true]
  refine ⟨?_, ?_, ?_⟩ <;> omega

theorem quantumBytes_three (b0 b1 : Nat) (h0 : b0 < 256) (h1 : b1 < 256) :
    quantumBytes [(b0 * 65536 + b1 * 256) / 262144 % 64,
      (b0 * 65536 + b1 * 256) / 4096 % 64,
      (b0 * 65536 + b1 * 256) / 64 % 64] = [b0, b1] := by
  simp only [quantumBytes, List.getD_cons_zero, List.getD_cons_succ, List.length_cons,
    List.length_nil, List.getD_nil]
  simp only [List.take, List.cons.injEq, and_true]
  refine ⟨?_, ?_⟩ <;> omega

theorem quantumBytes_two (b0 : Nat) (h0 : b0 < 256) :
    quantumBytes [(b0 * 65536) / 262144 % 64, (b0 * 65536) / 4096 % 64] = [b0] := by
  simp only [quantumBytes, List.getD_cons_zero, List.getD_cons_succ, List.length_cons,
    List.length_nil, List.getD_nil]
  simp only [List.take, List.cons.injEq, and_true]
  omega

/-- Decoding undoes encoding on every string of bytes. -/
theorem decodeString_encodeToString (x : GoString) (hx : IsBytes x) :
    decodeString (encodeToString x) = some x := by
  unfold decodeString
  induction x using encodeToString.induct with
  | case1 b0 b1 b2 rest ih =>
    have h0 : b0 < 256 := hx b0 (by simp)
    have h1 : b1 < 256 := hx b1 (by simp)
    have h2 : b2 < 256 := hx b2 (by simp)
    have hr : IsBytes rest := fun b hb => hx b (by simp [hb])
    simp only [encodeToString, decodeFrom, decodeMap_encodeDigit _ (Nat.mod_lt _ (by decide)),
      List.nil_append, List.length_nil, List.length_cons, List.cons_append, ih hr,
      Option.map_some', quantumBytes_four b0 b1 b2 h0 h1 h2]
    simp
  | case2 b0 b1 =>
    have h0 : b0 < 256 := hx b0 (by simp)
    have h1 : b1 < 256 := hx b1 (by simp)
    simp only [encodeToString, decodeFrom, decodeMap_encodeDigit _ (Nat.mod_lt _ (by decide)),
      List.nil_append, List.length_nil, List.length_cons, List.cons_append, decodeMap_padChar,
      skipNewlines, quantumBytes_three b0 b1 h0 h1]
    simp [padChar]
  | case3 b0 =>
    have h0 : b0 < 256 := hx b0 (by simp)
    simp only [encodeToString, decodeFrom, decodeMap_encodeDigit _ (Nat.mod_lt _ (by decide)),
      List.nil_append, List.length_nil, List.length_cons, List.cons_append, decodeMap_padChar,
      skipNewlines, quantumBytes_two b0 h0]
    simp [padChar, skipNewlines]
  | case4 => simp [encodeToString, decodeFrom]

/-! ## Lemmas on the colon search -/

theorem colonLoop_append (u p : GoString) (hu : 58 ∉ u) (i : Nat) :
    colonLoop (u ++ 58 :: p) i = ((i + u.length : Nat) : Int) := by
  induction u generalizing i with
  | nil => simp [colonLoop]
  | cons a u ih =>
    have ha : a ≠ 58 := fun h => hu (by simp [h])
    have hu2 : 58 ∉ u := fun h => hu (by simp [h])
    rw [List.cons_append, colonLoop, if_neg ha, ih hu2 (i + 1), List.length_cons]
    congr 1; omega

theorem colonLoop_spec (cs : GoString) (i : Nat) :
    (colonLoop cs i = -1 ∧ 58 ∉ cs) ∨
    (∃ u p, cs = u ++ 58 :: p ∧ 58 ∉ u ∧ colonLoop cs i = ((i + u.length : Nat) : Int)) := by
  induction cs generalizing i with
  | nil => left; simp [colonLoop]
  | cons c rest ih =>
    by_cases hc : c = 58
    · right
      exact ⟨[], rest, by simp [hc], by simp, by simp [colonLoop, hc]⟩
    · rcases ih (i + 1) with ⟨h1, h2⟩ | ⟨u, p, h1, h2, h3⟩
      · left
        refine ⟨by simp [colonLoop, hc, h1], ?_⟩
        simp only [List.mem_cons, not_or]
        exact ⟨fun h => hc h.symm, h2⟩
      · right
        refine ⟨c :: u, p, by simp [h1], ?_, ?_⟩
        · simp only [List.mem_cons, not_or]
          exact ⟨fun h => hc h.symm, h2⟩
        · simp only [colonLoop, hc, if_false, h3, List.length_cons]
          congr 1; omega

/-! ## Lemmas on header maps -/

theorem Header.index_store_same (h : Header) (k : GoString) (vs : List GoString) :
    Header.index (Header.store h k vs) k = vs := by
  induction h with
  | nil => simp [Header.store, Header.index]
  | cons e rest ih =>
    obtain ⟨k2, vs2⟩ := e
    by_cases hk : k2 = k
    · simp [Header.store, Header.index, hk]
    · simp [Header.store, Header.index, hk, ih]

theorem Header.index_store_ne (h : Header) (k k2 : GoString) (vs : List GoString)
    (hne : k ≠ k2) : Header.index (Header.store h k vs) k2 = Header.index h k2 := by
  induction h with
  | nil => simp [Header.store, Header.index, hne]
  | cons e rest ih =>
    obtain ⟨k3, vs3⟩ := e
    by_cases hk : k3 = k
    · subst hk
      simp [Header.store, Header.index, hne]
    · by_cases hk2 : k3 = k2
      · subst hk2
        simp [Header.store, Header.index, hk]
      · simp [Header.store, Header.index, hk, hk2, ih]

theorem Header.index_delete_ne (h : Header) (k k2 : GoString) (hne : k ≠ k2) :
    Header.index (Header.delete h k) k2 = Header.index h k2 := by
  induction h with
  | nil => simp [Header.delete, Header.index]
  | cons e rest ih =>
    obtain ⟨k3, vs3⟩ := e
    unfold Header.delete at ih ⊢
    rw [List.filter_cons]
    by_cases hk : k3 = k
    · subst hk
      have hd : decide ((k3, vs3).1 ≠ k3) = false := by simp
      rw [hd, if_neg (by simp), ih]
      simp [Header.index, hne]
    · have hd : decide ((k3, vs3).1 ≠ k) = true := by simp [hk]
      rw [hd]
      by_cases hk2 : k3 = k2
      · subst hk2
        simp [Header.index]
      · simp only [if_true, Header.index, hk2, if_false]
        exact ih

theorem Header.index_eq_nil (h : Header) (k : GoString) (hk : k ∉ h.map Prod.fst) :
    Header.index h k = [] := by
  induction h with
  | nil => rfl
  | cons e rest ih =>
    obtain ⟨k3, vs3⟩ := e
    simp only [List.map_cons, List.mem_cons, not_or] at hk
    have h1 : ¬ k3 = k := fun h => hk.1 h.symm
    simp [Header.index, h1, ih hk.2]

theorem Header.index_of_mem (h : Header) (hwf : Header.WF h) (k : GoString)
    (vs : List GoString) (hm : (k, vs) ∈ h) : Header.index h k = vs := by
  induction h with
  | nil => simp at hm
  | cons e rest ih =>
    obtain ⟨k3, vs3⟩ := e
    unfold Header.WF at hwf ih
    simp only [List.map_cons, List.nodup_cons] at hwf
    rcases List.mem_cons.mp hm with h1 | h1
    · simp only [Prod.mk.injEq] at h1
      simp [Header.index, h1.1, h1.2]
    · have hk : k ∈ rest.map Prod.fst := List.mem_map.mpr ⟨(k, vs), h1, rfl⟩
      have hne : ¬ k3 = k := fun h => hwf.1 (h ▸ hk)
      simp [Header.index, hne, ih hwf.2 h1]

theorem Header.index_perm (h1 h2 : Header) (hp : h1.Perm h2) (hwf : Header.WF h2)
    (k : GoString) : Header.index h1 k = Header.index h2 k := by
  have hwf1 : Header.WF h1 := by
    unfold Header.WF at hwf ⊢
    exact (hp.map Prod.fst).nodup_iff.mpr hwf
  by_cases hk : k ∈ h2.map Prod.fst
  · obtain ⟨⟨k2, vs⟩, hm, hkk⟩ := List.mem_map.mp hk
    simp only at hkk
    subst hkk
    rw [Header.index_of_mem h2 hwf k2 vs hm,
      Header.index_of_mem h1 hwf1 k2 vs (hp.mem_iff.mpr hm)]
  · have hk1 : k ∉ h1.map Prod.fst := fun h => hk ((hp.map Prod.fst).mem_iff.mp h)
    rw [Header.index_eq_nil h2 k hk, Header.index_eq_nil h1 k hk1]

theorem Header.index_Add (h : Header) (key v k : GoString) :
    Header.index (Header.Add h key v) k =
      if k = CanonicalMIMEHeaderKey key then Header.index h k ++ [v] else Header.index h k := by
  unfold Header.Add
  by_cases hk : k = CanonicalMIMEHeaderKey key
  · subst hk
    simp [Header.index_store_same]
  · rw [if_neg hk]
    exact Header.index_store_ne _ _ _ _ (fun h => hk h.symm)

theorem Header.index_foldl_Add (vv : List GoString) (h : Header) (key k : GoString) :
    Header.index (vv.foldl (fun d2 v => Header.Add d2 key v) h) k =
      if k = CanonicalMIMEHeaderKey key then Header.index h k ++ vv else Header.index h k := by
  induction vv generalizing h with
  | nil => simp
  | cons v vs ih =>
    rw [List.foldl_cons, ih, Header.index_Add]
    by_cases hk : k = CanonicalMIMEHeaderKey key
    · simp [hk]
    · simp [hk]

theorem index_copyHeader (dst src : Header) (hwf : Header.WF src)
    (hcanon : ∀ kv ∈ src, CanonicalMIMEHeaderKey kv.1 = kv.1) (k : GoString) :
    Header.index (copyHeader dst src) k = Header.index dst k ++ Header.index src k := by
  induction src generalizing dst with
  | nil => simp [copyHeader, Header.index]
  | cons e rest ih =>
    obtain ⟨k0, vv⟩ := e
    have hwf2 : Header.WF rest := by
      unfold Header.WF at hwf ⊢
      exact (List.nodup_cons.mp hwf).2
    have hk0 : k0 ∉ rest.map Prod.fst := by
      unfold Header.WF at hwf
      exact (List.nodup_cons.mp hwf).1
    have hc0 : CanonicalMIMEHeaderKey k0 = k0 := hcanon (k0, vv) (by simp)
    have hc2 : ∀ kv ∈ rest, CanonicalMIMEHeaderKey kv.1 = kv.1 :=
      fun kv hkv => hcanon kv (List.mem_cons_of_mem _ hkv)
    have step : copyHeader dst ((k0, vv) :: rest) =
        copyHeader (vv.foldl (fun d2 v => Header.Add d2 k0 v) dst) rest := by
      simp [copyHeader]
    rw [step, ih _ hwf2 hc2, Header.index_foldl_Add, hc0]
    by_cases hk : k = k0
    · subst hk
      simp [Header.index, Header.index_eq_nil rest k hk0]
    · have hk2 : ¬ k0 = k := fun h => hk h.symm
      simp [Header.index, hk, hk2]

theorem Header.store_append_new (d : Header) (k : GoString) (a vs : List GoString)
    (hk : k ∉ d.map Prod.fst) :
    Header.store (d ++ [(k, a)]) k vs = d ++ [(k, vs)] := by
  induction d with
  | nil => simp [Header.store]
  | cons e rest ih =>
    obtain ⟨k3, vs3⟩ := e
    simp only [List.map_cons, List.mem_cons, not_or] at hk
    have h1 : ¬ k3 = k := fun h => hk.1 h.symm
    simp [Header.store, h1, ih hk.2]

theorem Header.store_new (d : Header) (k : GoString) (vs : List GoString)
    (hk : k ∉ d.map Prod.fst) : Header.store d k vs = d ++ [(k, vs)] := by
  induction d with
  | nil => simp [Header.store]
  | cons e rest ih =>
    obtain ⟨k3, vs3⟩ := e
    simp only [List.map_cons, List.mem_cons, not_or] at hk
    have h1 : ¬ k3 = k := fun h => hk.1 h.symm
    simp [Header.store, h1, ih hk.2]

theorem Header.index_append_new (d : Header) (k : GoString) (a : List GoString)
    (hk : k ∉ d.map Prod.fst) : Header.index (d ++ [(k, a)]) k = a := by
  induction d with
  | nil => simp [Header.index]
  | cons e rest ih =>
    obtain ⟨k3, vs3⟩ := e
    simp only [List.map_cons, List.mem_cons, not_or] at hk
    have h1 : ¬ k3 = k := fun h => hk.1 h.symm
    simp [Header.index, h1, ih hk.2]

theorem foldl_Add_append_new (vs : List GoString) (d : Header) (k : GoString)
    (a : List GoString) (hk : k ∉ d.map Prod.fst) (hc : CanonicalMIMEHeaderKey k = k) :
    vs.foldl (fun d2 v => Header.Add d2 k v) (d ++ [(k, a)]) = d ++ [(k, a ++ vs)] := by
  induction vs generalizing a with
  | nil => simp
  | cons v vs ih =>
    rw [List.foldl_cons]
    have h1 : Header.Add (d ++ [(k, a)]) k v = d ++ [(k, a ++ [v])] := by
      unfold Header.Add
      rw [hc, Header.index_append_new d k a hk, Header.store_append_new d k a _ hk]
    rw [h1, ih]
    simp

theorem foldl_Add_new (vv : List GoString) (d : Header) (k : GoString)
    (hv : vv ≠ []) (hk : k ∉ d.map Prod.fst) (hc : CanonicalMIMEHeaderKey k = k) :
    vv.foldl (fun d2 v => Header.Add d2 k v) d = d ++ [(k, vv)] := by
  cases vv with
  | nil => exact absurd rfl hv
  | cons v vs =>
    rw [List.foldl_cons]
    have h1 : Header.Add d k v = d ++ [(k, [v])] := by
      unfold Header.Add
      rw [hc, Header.index_eq_nil d k hk, Header.store_new d k _ hk]
      rfl
    rw [h1, foldl_Add_append_new vs d k [v] hk hc]
    rfl

theorem copyHeader_disjoint (dst src : Header) (hwf : Header.WF src)
    (hcanon : ∀ kv ∈ src, CanonicalMIMEHeaderKey kv.1 = kv.1)
    (hne : ∀ kv ∈ src, kv.2 ≠ [])
    (hdis : ∀ kv ∈ src, kv.1 ∉ dst.map Prod.fst) :
    copyHeader dst src = dst ++ src := by
  induction src generalizing dst with
  | nil => simp [copyHeader]
  | cons e rest ih =>
    obtain ⟨k0, vv⟩ := e
    have hwf2 : Header.WF rest := by
      unfold Header.WF at hwf ⊢
      exact (List.nodup_cons.mp hwf).2
    have hk0 : k0 ∉ rest.map Prod.fst := by
      unfold Header.WF at hwf
      exact (List.nodup_cons.mp hwf).1
    have step : copyHeader dst ((k0, vv) :: rest) =
        copyHeader (vv.foldl (fun d2 v => Header.Add d2 k0 v) dst) rest := by
      simp [copyHeader]
    rw [step, foldl_Add_new vv dst k0 (hne (k0, vv) (by simp)) (hdis (k0, vv) (by simp))
      (hcanon (k0, vv) (by simp))]
    rw [ih (dst ++ [(k0, vv)]) hwf2 (fun kv hkv => hcanon kv (List.mem_cons_of_mem _ hkv))
      (fun kv hkv => hne kv (List.mem_cons_of_mem _ hkv))]
    · simp
    · intro kv hkv hmem
      simp only [List.map_append, List.map_cons, List.map_nil, List.mem_append,
        List.mem_singleton] at hmem
      rcases hmem with hmem | hmem
      · exact hdis kv (List.mem_cons_of_mem _ hkv) hmem
      · apply hk0
        rw [← hmem]
        exact List.mem_map.mpr ⟨kv, hkv, rfl⟩

/-! ## Lemmas on the response writer and the handlers -/

theorem WriteHeader_body (w : ResponseWriter) (code : Nat) :
    (w.WriteHeader code).body = w.body := by
  unfold ResponseWriter.WriteHeader
  cases hs : w.sent with
  | some x => rfl
  | none => simp only; split <;> rfl

theorem WriteHeader_header (w : ResponseWriter) (code : Nat) :
    (w.WriteHeader code).header = w.header := by
  unfold ResponseWriter.WriteHeader
  cases hs : w.sent with
  | some x => rfl
  | none => simp only; split <;> rfl

theorem WriteHeader_hijacker (w : ResponseWriter) (code : Nat) :
    (w.WriteHeader code).hijacker = w.hijacker := by
  unfold ResponseWriter.WriteHeader
  cases hs : w.sent with
  | some x => rfl
  | none => simp only; split <;> rfl

theorem WriteHeader_sent (w : ResponseWriter) (code : Nat) (hw : w.sent = none)
    (hc : finalStatusCode code = true) :
    (w.WriteHeader code).sent = some (code, w.header) := by
  unfold ResponseWriter.WriteHeader
  rw [hw]
  simp only [hc, if_true]

theorem WriteHeader_sent_of_some (w : ResponseWriter) (code : Nat) (x : Nat × Header)
    (hw : w.sent = some x) : (w.WriteHeader code).sent = some x := by
  unfold ResponseWriter.WriteHeader
  rw [hw]
  exact hw

theorem WriteHeader_sent_of_not_final (w : ResponseWriter) (code : Nat) (hw : w.sent = none)
    (hc : finalStatusCode code = false) : (w.WriteHeader code).sent = none := by
  unfold ResponseWriter.WriteHeader
  rw [hw]
  simp only [hc, Bool.false_eq_true, if_false]
  exact hw

/-- The codes the handler passes to `WriteHeader` and `http.Error` itself: the
library records each as the status and panics on none. -/
theorem constant_codes (w : ResponseWriter) :
    (finalStatusCode 200 = true ∧ w.WriteHeaderPanics 200 = false) ∧
    (finalStatusCode 407 = true ∧ w.WriteHeaderPanics 407 = false) ∧
    (finalStatusCode 500 = true ∧ w.WriteHeaderPanics 500 = false) ∧
    (finalStatusCode 503 = true ∧ w.WriteHeaderPanics 503 = false) := by
  have h : ∀ c, checkWriteHeaderCode c = true →
      (w.sent.isNone && !checkWriteHeaderCode c) = false := by
    intro c hc
    simp [hc]
  unfold ResponseWriter.WriteHeaderPanics
  exact ⟨⟨rfl, h 200 rfl⟩, ⟨rfl, h 407 rfl⟩, ⟨rfl, h 500 rfl⟩, ⟨rfl, h 503 rfl⟩⟩

theorem Write_sent (w : ResponseWriter) (p : GoString) (x : Nat × Header)
    (hw : w.sent = some x) : (w.Write p).sent = some x := by
  unfold ResponseWriter.Write
  exact WriteHeader_sent_of_some w 200 x hw

theorem Write_sent_of_none (w : ResponseWriter) (p : GoString) (hw : w.sent = none) :
    (w.Write p).sent = some (200, w.header) := by
  unfold ResponseWriter.Write
  exact WriteHeader_sent w 200 hw rfl

theorem Write_body (w : ResponseWriter) (p : GoString) : (w.Write p).body = w.body ++ p := by
  unfold ResponseWriter.Write
  simp only [WriteHeader_body]

theorem Write_header (w : ResponseWriter) (p : GoString) : (w.Write p).header = w.header := by
  unfold ResponseWriter.Write
  exact WriteHeader_header w 200

theorem httpError_sent (w : ResponseWriter) (e : GoString) (code : Nat) (hw : w.sent = none)
    (hc : finalStatusCode code = true) :
    (httpError w e code).sent = some (code,
      Header.Set (Header.Set (Header.Del w.header (lit "Content-Length"))
        (lit "Content-Type") (lit "text/plain; charset=utf-8"))
        (lit "X-Content-Type-Options") (lit "nosniff")) := by
  unfold httpError
  simp only
  exact Write_sent _ _ _ (WriteHeader_sent _ code hw hc)

theorem httpError_sent_of_some (w : ResponseWriter) (e : GoString) (code : Nat)
    (x : Nat × Header) (hw : w.sent = some x) : (httpError w e code).sent = some x := by
  unfold httpError
  simp only
  exact Write_sent _ _ _ (WriteHeader_sent_of_some _ code x hw)

theorem httpError_body (w : ResponseWriter) (e : GoString) (code : Nat) :
    (httpError w e code).body = w.body ++ (e ++ [10]) := by
  unfold httpError
  simp only
  rw [Write_body, WriteHeader_body]

theorem handleTunneling_head (env : World) (w : ResponseWriter) (r : Request) (t : Int) :
    ∃ rest, (handleTunneling env w r t).2 = Event.enterTunneling t :: rest := by
  unfold handleTunneling
  cases h1 : env.dial r.Host t with
  | some err => exact ⟨_, rfl⟩
  | none =>
    cases h2 : (w.WriteHeader 200).hijacker with
    | none => simp only [h2]; exact ⟨_, rfl⟩
    | some res =>
      cases res with
      | none => simp only [h2]; exact ⟨_, rfl⟩
      | some err => simp only [h2]; exact ⟨_, rfl⟩

theorem handleHTTP_head (env : World) (w : ResponseWriter) (r : Request) :
    ∃ rest, (handleHTTP env w r).2 = Event.enterHTTP :: rest := by
  unfold handleHTTP
  cases h1 : env.roundTrip r with
  | error err => exact ⟨_, rfl⟩
  | ok resp =>
    simp only
    split <;> exact ⟨_, rfl⟩

theorem canonical_proxyAuthorization :
    CanonicalMIMEHeaderKey (lit "Proxy-Authorization") = lit "Proxy-Authorization" := by decide

theorem canonical_proxyAuthenticate :
    CanonicalMIMEHeaderKey (lit "Proxy-Authenticate") = lit "Proxy-Authenticate" := by decide

/-- The header map of the gate, after `http.Error`, still holds the challenge. -/
theorem gate_header (h : Header) :
    Header.Get (Header.Set (Header.Set (Header.Del
        (Header.Set h (lit "Proxy-Authenticate") (lit "Basic")) (lit "Content-Length"))
        (lit "Content-Type") (lit "text/plain; charset=utf-8"))
        (lit "X-Content-Type-Options") (lit "nosniff")) (lit "Proxy-Authenticate") =
      lit "Basic" := by
  unfold Header.Get Header.Set Header.Del
  rw [Header.index_store_ne _ _ _ _ (by decide), Header.index_store_ne _ _ _ _ (by decide),
    Header.index_delete_ne _ _ _ (by decide), Header.index_store_same]

theorem proxyBasicAuth_eq (r : Request) (u pw : GoString) :
    proxyBasicAuth r = (u, pw, true) ↔
      (Header.index r.Hdr (lit "Proxy-Authorization") ≠ [] ∧
        parseBasicAuth (Header.Get r.Hdr (lit "Proxy-Authorization")) = (u, pw, true)) := by
  unfold proxyBasicAuth
  by_cases hg : Header.Get r.Hdr (lit "Proxy-Authorization") = []
  · simp only [hg, if_true]
    constructor
    · intro h; simp at h
    · intro h
      have : parseBasicAuth [] = ([], [], false) := by decide
      rw [this] at h
      simp at h
  · simp only [hg, if_false]
    constructor
    · intro h
      refine ⟨?_, h⟩
      intro hi
      apply hg
      unfold Header.Get
      rw [canonical_proxyAuthorization, hi]
    · exact fun h => h.2

theorem unauthorized_eq_false (p : ProxyHandler) (r : Request) (u pw : GoString)
    (hU : p.Username = some u) (hP : p.Password = some pw) :
    unauthorized p r = false ↔ proxyBasicAuth r = (u, pw, true) := by
  unfold unauthorized
  rw [hU, hP]
  rcases hres : proxyBasicAuth r with ⟨a, b, c⟩
  cases c <;> simp

theorem unauthorized_of_unset (p : ProxyHandler) (r : Request)
    (h : p.Username = none ∨ p.Password = none) : unauthorized p r = false := by
  unfold unauthorized
  rcases h with h | h
  · rw [h]
  · rw [h]
    cases p.Username <;> rfl

theorem dispatch_event (p : ProxyHandler) (env : World) (w : ResponseWriter) (r : Request) :
    ∃ e ∈ (if r.Method = lit "CONNECT" then handleTunneling env w r p.Timeout
        else handleHTTP env w r).2,
      e = Event.enterTunneling p.Timeout ∨ e = Event.enterHTTP := by
  by_cases hm : r.Method = lit "CONNECT"
  · rw [if_pos hm]
    obtain ⟨rest, h⟩ := handleTunneling_head env w r p.Timeout
    exact ⟨_, by rw [h]; exact List.mem_cons_self _ _, Or.inl rfl⟩
  · rw [if_neg hm]
    obtain ⟨rest, h⟩ := handleHTTP_head env w r
    exact ⟨_, by rw [h]; exact List.mem_cons_self _ _, Or.inr rfl⟩

theorem foldl_Write_sent (cs : List GoString) (w : ResponseWriter) (x : Nat × Header)
    (hw : w.sent = some x) : (cs.foldl ResponseWriter.Write w).sent = some x := by
  induction cs generalizing w with
  | nil => exact hw
  | cons c cs ih => exact ih _ (Write_sent w c x hw)

/-- Writes on a writer that has sent no header leave no status or status 200. -/
theorem foldl_Write_status (cs : List GoString) (w : ResponseWriter) (hw : w.sent = none) :
    (cs.foldl ResponseWriter.Write w).status = none ∨
      (cs.foldl ResponseWriter.Write w).status = some 200 := by
  cases cs with
  | nil =>
    left
    simp [ResponseWriter.status, hw]
  | cons c cs =>
    right
    rw [List.foldl_cons]
    simp only [ResponseWriter.status, foldl_Write_sent cs _ _ (Write_sent_of_none w c hw),
      Option.map_some']

/-- The status of `handleTunneling` on a fresh writer: 503 when the dial
failed, and else the 200 of line 63, whatever is attempted afterwards. -/
theorem handleTunneling_status (env : World) (w : ResponseWriter) (r : Request) (t : Int)
    (hw : w.sent = none) :
    (handleTunneling env w r t).1.status =
      some (if (env.dial r.Host t).isSome then 503 else 200) := by
  unfold handleTunneling ResponseWriter.status
  have h200 := WriteHeader_sent w 200 hw rfl
  cases h1 : env.dial r.Host t with
  | some err => simp [httpError_sent w err 503 hw rfl]
  | none =>
    cases h2 : (w.WriteHeader 200).hijacker with
    | none => simp [h2, httpError_sent_of_some _ _ _ _ h200]
    | some res =>
      cases res with
      | none => simp [h2, h200]
      | some err => simp [h2, httpError_sent_of_some _ _ _ _ h200]

/-- What `handleHTTP` does after a round trip that gave a response with a
status code on which `WriteHeader` does not panic. -/
theorem handleHTTP_ok (env : World) (w : ResponseWriter) (r : Request) (resp : Response)
    (hr : env.roundTrip r = Except.ok resp)
    (hp : ResponseWriter.WriteHeaderPanics
      { w with header := copyHeader w.header resp.Hdr } resp.StatusCode = false) :
    handleHTTP env w r =
      ((ioCopy resp.Body env.clientWrites).1.foldl ResponseWriter.Write
        (ResponseWriter.WriteHeader
          { w with header := copyHeader w.header resp.Hdr } resp.StatusCode),
        [Event.enterHTTP, Event.roundTrip, Event.closeBody]) := by
  unfold handleHTTP
  simp only [hr, hp, Bool.false_eq_true, if_false]

/-- What `handleHTTP` does when `WriteHeader` panics. -/
theorem handleHTTP_panics (env : World) (w : ResponseWriter) (r : Request) (resp : Response)
    (hr : env.roundTrip r = Except.ok resp)
    (hp : ResponseWriter.WriteHeaderPanics
      { w with header := copyHeader w.header resp.Hdr } resp.StatusCode = true) :
    handleHTTP env w r =
      ({ w with header := copyHeader w.header resp.Hdr },
        [Event.enterHTTP, Event.roundTrip, Event.panicked, Event.closeBody]) := by
  unfold handleHTTP
  simp only [hr, hp, if_true]

theorem handleHTTP_error (env : World) (w : ResponseWriter) (r : Request) (e : GoString)
    (hr : env.roundTrip r = Except.error e) :
    handleHTTP env w r = (httpError w e 503, [Event.enterHTTP, Event.roundTrip]) := by
  unfold handleHTTP
  simp only [hr]

theorem final_not_panics (w : ResponseWriter) (code : Nat)
    (hc : finalStatusCode code = true) : w.WriteHeaderPanics code = false := by
  unfold ResponseWriter.WriteHeaderPanics checkWriteHeaderCode
  unfold finalStatusCode at hc
  have h : 100 ≤ code ∧ code ≤ 999 := by
    have := of_decide_eq_true hc
    omega
  simp [h]

/-- The status of `handleHTTP` on a fresh writer after a round trip that gave
a response with a final status code: this code. -/
theorem handleHTTP_status (env : World) (w : ResponseWriter) (r : Request) (resp : Response)
    (hr : env.roundTrip r = Except.ok resp) (hw : w.sent = none)
    (hc : finalStatusCode resp.StatusCode = true) :
    (handleHTTP env w r).1.status = some resp.StatusCode := by
  rw [handleHTTP_ok env w r resp hr (final_not_panics _ _ hc)]
  have hs : (ResponseWriter.WriteHeader
      { w with header := copyHeader w.header resp.Hdr } resp.StatusCode).sent =
      some (resp.StatusCode, copyHeader w.header resp.Hdr) :=
    WriteHeader_sent _ _ hw hc
  simp only [ResponseWriter.status, foldl_Write_sent _ _ _ hs, Option.map_some']

/-- On a fresh writer `handleHTTP` leaves status 407 only when the round trip
gave a response with this status. -/
theorem handleHTTP_status_407 (env : World) (w : ResponseWriter) (r : Request)
    (hw : w.sent = none) (hst : (handleHTTP env w r).1.status = some 407) :
    ∃ resp, env.roundTrip r = Except.ok resp ∧ resp.StatusCode = 407 := by
  cases hr : env.roundTrip r with
  | error err =>
    rw [handleHTTP_error env w r err hr] at hst
    simp [ResponseWriter.status, httpError_sent w err 503 hw rfl] at hst
  | ok resp =>
    refine ⟨resp, rfl, ?_⟩
    cases hc : finalStatusCode resp.StatusCode with
    | true =>
      rw [handleHTTP_status env w r resp hr hw hc] at hst
      exact Option.some.inj hst
    | false =>
      exfalso
      cases hp : ResponseWriter.WriteHeaderPanics
          { w with header := copyHeader w.header resp.Hdr } resp.StatusCode with
      | true =>
        rw [handleHTTP_panics env w r resp hr hp] at hst
        simp [ResponseWriter.status, hw] at hst
      | false =>
        rw [handleHTTP_ok env w r resp hr hp] at hst
        have hn := WriteHeader_sent_of_not_final
          { w with header := copyHeader w.header resp.Hdr } resp.StatusCode hw hc
        rcases foldl_Write_status (ioCopy resp.Body env.clientWrites).1 _ hn with h | h
        · rw [h] at hst
          exact Option.noConfusion hst
        · rw [h] at hst
          have := Option.some.inj hst
          omega

theorem foldl_Write_body (cs : List GoString) (w : ResponseWriter) :
    (cs.foldl ResponseWriter.Write w).body = w.body ++ cs.flatten := by
  induction cs generalizing w with
  | nil => simp
  | cons c cs ih => rw [List.foldl_cons, ih, Write_body, List.flatten_cons, List.append_assoc]

theorem foldl_Write_header (cs : List GoString) (w : ResponseWriter) :
    (cs.foldl ResponseWriter.Write w).header = w.header := by
  induction cs generalizing w with
  | nil => rfl
  | cons c cs ih => rw [List.foldl_cons, ih, Write_header]

/-- A copy that returns no error has written every byte of the source. -/
theorem ioCopy_complete (reads : List ReadResult) (writes : List (Option Nat))
    (h : (ioCopy reads writes).2 = false) :
    (ioCopy reads writes).1.flatten = streamBytes reads := by
  induction reads generalizing writes with
  | nil => simp [ioCopy, streamBytes]
  | cons r rs ih =>
    obtain ⟨chunk, err⟩ := r
    by_cases hc : chunk = []
    · subst hc
      cases err with
      | none =>
        simp only [ioCopy, ne_eq, not_true_eq_false, if_false] at h ⊢
        simp only [streamBytes, List.nil_append]
        exact ih writes h
      | some e =>
        cases e with
        | eof => simp [ioCopy, streamBytes]
        | failure => simp [ioCopy] at h
    · cases writes with
      | nil =>
        cases err with
        | none =>
          simp only [ioCopy, ne_eq, hc, not_false_eq_true, if_true, List.tail_nil] at h ⊢
          simp only [streamBytes, List.flatten_cons, ih [] h]
        | some e =>
          cases e with
          | eof => simp [ioCopy, streamBytes, hc]
          | failure => simp [ioCopy, hc] at h
      | cons wr ws =>
        cases wr with
        | some nw => simp [ioCopy, hc] at h
        | none =>
          cases err with
          | none =>
            simp only [ioCopy, ne_eq, hc, not_false_eq_true, if_true, List.tail_cons] at h ⊢
            simp only [streamBytes, List.flatten_cons, ih ws h]
          | some e =>
            cases e with
            | eof => simp [ioCopy, streamBytes, hc]
            | failure => simp [ioCopy, hc] at h

theorem handleTunneling_enter (env : World) (w : ResponseWriter) (r : Request) (t : Int) :
    (handleTunneling env w r t).2.filter Event.isEnter = [Event.enterTunneling t] ∧
    Event.dial r.Host t ∈ (handleTunneling env w r t).2 := by
  unfold handleTunneling
  cases h1 : env.dial r.Host t with
  | some err => simp [Event.isEnter, List.filter]
  | none =>
    cases h2 : (w.WriteHeader 200).hijacker with
    | none => simp [h2, Event.isEnter, List.filter]
    | some res =>
      cases res with
      | none => simp [h2, Event.isEnter, List.filter]
      | some err => simp [h2, Event.isEnter, List.filter]

theorem handleHTTP_enter (env : World) (w : ResponseWriter) (r : Request) :
    (handleHTTP env w r).2.filter Event.isEnter = [Event.enterHTTP] := by
  unfold handleHTTP
  cases h1 : env.roundTrip r with
  | error err => simp [Event.isEnter, List.filter]
  | ok resp =>
    simp only
    split <;> simp [Event.isEnter, List.filter]

/-- On a fresh writer the dispatched handler leaves status 407 only when
`handleHTTP` relays a response of the destination with this status. -/
theorem dispatch_407 (env : World) (w : ResponseWriter) (r : Request) (t : Int)
    (hw : w.sent = none)
    (hst : (if r.Method = lit "CONNECT" then handleTunneling env w r t
      else handleHTTP env w r).1.status = some 407) :
    r.Method ≠ lit "CONNECT" ∧
      ∃ resp, env.roundTrip r = Except.ok resp ∧ resp.StatusCode = 407 := by
  by_cases hm : r.Method = lit "CONNECT"
  · rw [if_pos hm, handleTunneling_status env w r t hw] at hst
    cases hd : (env.dial r.Host t).isSome <;> simp [hd] at hst
  · rw [if_neg hm] at hst
    exact ⟨hm, handleHTTP_status_407 env w r hw hst⟩

theorem lower_eq_asciiFoldSpec (b : Nat) : lower b = asciiFoldSpec b := by
  unfold lower asciiFoldSpec
  split
  · omega
  · rfl

theorem equalFold_cons (a b : Nat) (s t : GoString) :
    equalFold (a :: s) (b :: t) = (decide (lower a = lower b) && equalFold s t) := by
  unfold equalFold
  by_cases hl : s.length = t.length
  · by_cases hab : lower a = lower b
    · simp [hl, hab, equalFoldLoop]
    · simp [hl, hab, equalFoldLoop]
  · simp [hl]

theorem equalFold_iff_map (s t : GoString) :
    equalFold s t = true ↔ s.map lower = t.map lower := by
  induction s generalizing t with
  | nil =>
    cases t with
    | nil => simp [equalFold, equalFoldLoop]
    | cons b t => simp [equalFold]
  | cons a s ih =>
    cases t with
    | nil => simp [equalFold]
    | cons b t =>
      rw [equalFold_cons]
      simp only [Bool.and_eq_true, decide_eq_true_eq, ih, List.map_cons, List.cons.injEq]

theorem map_lower_iff_index (s t : GoString) :
    s.map lower = t.map lower ↔
      (s.length = t.length ∧
        ∀ i, i < s.length → asciiFoldSpec (s.getD i 0) = asciiFoldSpec (t.getD i 0)) := by
  induction s generalizing t with
  | nil =>
    cases t with
    | nil => simp
    | cons b t => simp
  | cons a s ih =>
    cases t with
    | nil => simp
    | cons b t =>
      simp only [List.map_cons, List.cons.injEq, ih, List.length_cons, Nat.add_right_cancel_iff]
      constructor
      · rintro ⟨hab, hl, hi⟩
        refine ⟨hl, ?_⟩
        intro i hlt
        cases i with
        | zero =>
          simp only [List.getD_cons_zero]
          rw [← lower_eq_asciiFoldSpec, ← lower_eq_asciiFoldSpec]
          exact hab
        | succ n =>
          simp only [List.getD_cons_succ]
          exact hi n (by omega)
      · rintro ⟨hl, hi⟩
        refine ⟨?_, hl, ?_⟩
        · have := hi 0 (by omega)
          simp only [List.getD_cons_zero] at this
          rw [lower_eq_asciiFoldSpec, lower_eq_asciiFoldSpec]
          exact this
        · intro i hlt
          have := hi (i + 1) (by omega)
          simp only [List.getD_cons_succ] at this
          exact this

/-! ## Lemmas on traces -/

theorem count_interleave {α : Type} [DecidableEq α] (e : α) (s : List Bool) (xs ys : List α) :
    (interleave s xs ys).count e = xs.count e + ys.count e := by
  induction s generalizing xs ys with
  | nil =>
    cases xs with
    | nil => simp [interleave]
    | cons x xs =>
      cases ys with
      | nil => simp [interleave]
      | cons y ys =>
        simp only [interleave]
        exact List.count_append _ _ _
  | cons b s ih =>
    cases xs with
    | nil => simp [interleave]
    | cons x xs =>
      cases ys with
      | nil => simp [interleave]
      | cons y ys =>
        cases b with
        | true =>
          simp only [interleave, List.count_cons, ih]
          omega
        | false =>
          simp only [interleave, List.count_cons, ih]
          omega

theorem filter_isClose_writes (d : Conn) (cs : List GoString) :
    (cs.map (Event.write d)).filter Event.isClose = [] := by
  induction cs with
  | nil => rfl
  | cons c cs ih => simp [List.filter, Event.isClose, ih]

theorem count_close_writes (c d : Conn) (cs : List GoString) :
    (cs.map (Event.write d)).count (Event.close c) = 0 := by
  induction cs with
  | nil => rfl
  | cons x cs ih => simp [List.count_cons, ih]

theorem takeWhile_writes (d : Conn) (cs : List GoString) (c : Conn) (rest : List Event) :
    (cs.map (Event.write d) ++ Event.close c :: rest).takeWhile (fun e => !e.isClose) =
      cs.map (Event.write d) := by
  induction cs with
  | nil => simp [List.takeWhile, Event.isClose]
  | cons x cs ih => simp [List.takeWhile, Event.isClose, ih]

theorem dropWhile_writes (d : Conn) (cs : List GoString) (c : Conn) (rest : List Event) :
    (cs.map (Event.write d) ++ Event.close c :: rest).dropWhile (fun e => !e.isClose) =
      Event.close c :: rest := by
  induction cs with
  | nil => simp [List.dropWhile, Event.isClose]
  | cons x cs ih => simp [List.dropWhile, Event.isClose, ih]

theorem closeCount_transfer (c destination source : Conn) (reads : List ReadResult)
    (writes : List (Option Nat)) :
    closeCount c (transfer destination source reads writes) =
      (if source = c then 1 else 0) + (if destination = c then 1 else 0) := by
  unfold closeCount transfer
  rw [List.count_append, count_close_writes]
  simp only [List.count_cons, List.count_nil, beq_iff_eq, Event.close.injEq]
  omega

/-! ## The credential parser: claims C1, C2, C3 -/

theorem basicPrefix_length : basicPrefix.length = 6 := by decide

/-- C1: for every user name of bytes without a colon, every password of bytes
and every six bytes `p` that `equalFold` equates with `Basic` and a space,
`parseBasicAuth` applied to `p` followed by the standard base64 encoding of
`user:pass` returns `(user, pass, true)`. -/
theorem parseBasicAuth_roundtrip (user pass p : GoString)
    (hu : IsBytes user) (hp : IsBytes pass) (hc : 58 ∉ user)
    (hfold : equalFold p (lit "Basic ") = true) :
    parseBasicAuth (p ++ encodeToString (user ++ [58] ++ pass)) = (user, pass, true) := by
  have hlen : p.length = 6 := by
    unfold equalFold at hfold
    by_cases hl : p.length = (lit "Basic ").length
    · exact hl
    · simp [hl] at hfold
  have hx : IsBytes (user ++ [58] ++ pass) := by
    intro b hb
    simp only [List.append_assoc, List.singleton_append, List.mem_append, List.mem_cons] at hb
    rcases hb with hb | hb | hb
    · exact hu b hb
    · omega
    · exact hp b hb
  have hdec := decodeString_encodeToString _ hx
  have htake : (p ++ encodeToString (user ++ [58] ++ pass)).take 6 = p := by
    rw [← hlen]; exact List.take_left _ _
  have hdrop : (p ++ encodeToString (user ++ [58] ++ pass)).drop 6 =
      encodeToString (user ++ [58] ++ pass) := by
    rw [← hlen]; exact List.drop_left _ _
  have hcol : colonLoop (user ++ [58] ++ pass) 0 = (user.length : Int) := by
    have := colonLoop_append user pass hc 0
    simpa using this
  have hfold2 : equalFold p basicPrefix = true := hfold
  unfold parseBasicAuth
  rw [basicPrefix_length, htake, hdrop, hdec, hfold2]
  have hl : ¬ (p ++ encodeToString (user ++ [58] ++ pass)).length < 6 := by
    rw [List.length_append, hlen]; omega
  simp only [hl, Bool.not_true, Bool.false_eq_true, or_self, if_false, hcol]
  have hneg : ¬ ((user.length : Int) < 0) := by omega
  simp only [hneg, if_false, Int.toNat_ofNat]
  simp

/-- The example of the doc comment of `parseBasicAuth`, and the same payload
after the scheme written `bAsIc`, both obtained from C1. -/
theorem parseBasicAuth_roundtrip_witness :
    parseBasicAuth (lit "Basic QWxhZGRpbjpvcGVuIHNlc2FtZQ==") =
      (lit "Aladdin", lit "open sesame", true) ∧
    parseBasicAuth (lit "bAsIc QWxhZGRpbjpvcGVuIHNlc2FtZQ==") =
      (lit "Aladdin", lit "open sesame", true) := by
  have h1 := parseBasicAuth_roundtrip (lit "Aladdin") (lit "open sesame") (lit "Basic ")
    (by decide) (by decide) (by decide) (by decide)
  have h2 := parseBasicAuth_roundtrip (lit "Aladdin") (lit "open sesame") (lit "bAsIc ")
    (by decide) (by decide) (by decide) (by decide)
  have e1 : lit "Basic " ++ encodeToString (lit "Aladdin" ++ [58] ++ lit "open sesame") =
      lit "Basic QWxhZGRpbjpvcGVuIHNlc2FtZQ==" := by decide
  have e2 : lit "bAsIc " ++ encodeToString (lit "Aladdin" ++ [58] ++ lit "open sesame") =
      lit "bAsIc QWxhZGRpbjpvcGVuIHNlc2FtZQ==" := by decide
  rw [e1] at h1
  rw [e2] at h2
  exact ⟨h1, h2⟩

/-- C2: `parseBasicAuth` returns the zero values, so `ok = false`, when the
value is shorter than six bytes or its first six bytes are not `Basic` and a
space up to ASCII case, when the rest is rejected by the standard base64
decoder, and when the decoded payload has no colon. -/
theorem parseBasicAuth_rejects (auth : GoString)
    (h : (auth.length < 6 ∨ equalFold (auth.take 6) (lit "Basic ") = false) ∨
      decodeString (auth.drop 6) = none ∨
      (∃ d, decodeString (auth.drop 6) = some d ∧ 58 ∉ d)) :
    parseBasicAuth auth = ([], [], false) ∧ (parseBasicAuth auth).2.2 = false := by
  have key : parseBasicAuth auth = ([], [], false) := by
    unfold parseBasicAuth
    rw [basicPrefix_length]
    rcases h with h | h | ⟨d, h, hd⟩
    · have : auth.length < 6 ∨ (!equalFold (auth.take 6) basicPrefix) = true := by
        rcases h with h | h
        · exact Or.inl h
        · right
          have h2 : equalFold (auth.take 6) basicPrefix = false := h
          rw [h2]; rfl
      rw [if_pos this]
    · split
      · rfl
      · rw [h]
    · split
      · rfl
      · rw [h]
        rcases colonLoop_spec d 0 with ⟨h1, _⟩ | ⟨u, p, h1, _, _⟩
        · simp only [h1]
          rfl
        · exact absurd (by rw [h1]; simp) hd
  exact ⟨key, by rw [key]⟩

/-- Three rejected values: a scheme other than Basic, a payload with a byte
outside the alphabet, and a payload `QWxhZGRpbg==` (Aladdin) without colon. -/
theorem parseBasicAuth_rejects_witness :
    (parseBasicAuth (lit "Bearer QTpi")).2.2 = false ∧
    (parseBasicAuth (lit "Basic QTp?")).2.2 = false ∧
    (parseBasicAuth (lit "Basic QWxhZGRpbg==")).2.2 = false :=
  ⟨(parseBasicAuth_rejects (lit "Bearer QTpi") (Or.inl (Or.inr (by decide)))).2,
   (parseBasicAuth_rejects (lit "Basic QTp?") (Or.inr (Or.inl (by decide)))).2,
   (parseBasicAuth_rejects (lit "Basic QWxhZGRpbg==")
      (Or.inr (Or.inr ⟨lit "Aladdin", by decide, by decide⟩))).2⟩

/-- C3: when `parseBasicAuth` returns `(username, password, true)`, the rest of
the value after its first six bytes decodes to `username`, a colon and
`password`, and `username` has no colon: the split is at the first colon and
both parts are the decoded bytes as they are. -/
theorem parseBasicAuth_split (auth username password : GoString)
    (h : parseBasicAuth auth = (username, password, true)) :
    ∃ d, decodeString (auth.drop 6) = some d ∧
      d = username ++ [58] ++ password ∧ 58 ∉ username := by
  unfold parseBasicAuth at h
  rw [basicPrefix_length] at h
  split at h
  · simp at h
  · split at h
    · simp at h
    · rename_i cs hcs
      refine ⟨cs, hcs, ?_⟩
      rcases colonLoop_spec cs 0 with ⟨h1, _⟩ | ⟨u, p, h1, h2, h3⟩
      · rw [h1] at h
        simp at h
      · rw [h3] at h
        have hneg : ¬ ((u.length : Int) < 0) := by omega
        simp only [Nat.zero_add] at h
        rw [if_neg hneg] at h
        simp only [Int.toNat_ofNat, Prod.mk.injEq, and_true] at h
        obtain ⟨hu, hp⟩ := h
        subst h1
        rw [List.take_left] at hu
        have hp2 : p = password := by
          rw [← hp]
          have : (u ++ 58 :: p).drop (u.length + 1) = p := by
            rw [← List.drop_drop, List.drop_left]
            rfl
          exact this.symm
        subst hu
        subst hp2
        exact ⟨by simp, h2⟩

/-- A password with a second colon, and a user name with a space and capital
letters: the value `Basic IEFiOmM6ZCA=` carries ` Ab` and `c:d `. -/
theorem parseBasicAuth_split_witness :
    ∃ d, decodeString ((lit "Basic IEFiOmM6ZCA=").drop 6) = some d ∧
      d = lit " Ab" ++ [58] ++ lit "c:d " ∧ 58 ∉ lit " Ab" :=
  parseBasicAuth_split (lit "Basic IEFiOmM6ZCA=") (lit " Ab") (lit "c:d ") (by decide)

/-! ## The auth gate: claims C4, C5 -/

/-- C4: with both credentials configured and a response writer that has not
written a header, `ServeHTTP` enters a handler if and only if the request has
a `Proxy-Authorization` header on which `parseBasicAuth` returns exactly the
configured user name and password; then it does what the handler of the method
does.  In every other case the response has status 407 and the header
`Proxy-Authenticate: Basic`, its body is `Unauthorized`, and the trace is
empty: neither `handleTunneling` nor `handleHTTP` was entered. -/
theorem ServeHTTP_auth_gate (p : ProxyHandler) (env : World) (w : ResponseWriter)
    (r : Request) (u pw : GoString)
    (hU : p.Username = some u) (hP : p.Password = some pw) (hw : w.sent = none) :
    ((∃ e ∈ (ProxyHandler.ServeHTTP p env w r).2,
        e = Event.enterTunneling p.Timeout ∨ e = Event.enterHTTP) ↔
      (Header.index r.Hdr (lit "Proxy-Authorization") ≠ [] ∧
        parseBasicAuth (Header.Get r.Hdr (lit "Proxy-Authorization")) = (u, pw, true))) ∧
    ((Header.index r.Hdr (lit "Proxy-Authorization") ≠ [] ∧
        parseBasicAuth (Header.Get r.Hdr (lit "Proxy-Authorization")) = (u, pw, true)) →
      ProxyHandler.ServeHTTP p env w r =
        if r.Method = lit "CONNECT" then handleTunneling env w r p.Timeout
        else handleHTTP env w r) ∧
    (¬ (Header.index r.Hdr (lit "Proxy-Authorization") ≠ [] ∧
        parseBasicAuth (Header.Get r.Hdr (lit "Proxy-Authorization")) = (u, pw, true)) →
      (ProxyHandler.ServeHTTP p env w r).1.status = some 407 ∧
      (∃ h, (ProxyHandler.ServeHTTP p env w r).1.sent = some (407, h) ∧
        Header.Get h (lit "Proxy-Authenticate") = lit "Basic") ∧
      (ProxyHandler.ServeHTTP p env w r).1.body = w.body ++ lit "Unauthorized\n" ∧
      (ProxyHandler.ServeHTTP p env w r).2 = []) := by
  have hiff := (unauthorized_eq_false p r u pw hU hP).trans (proxyBasicAuth_eq r u pw)
  have hyes : (Header.index r.Hdr (lit "Proxy-Authorization") ≠ [] ∧
        parseBasicAuth (Header.Get r.Hdr (lit "Proxy-Authorization")) = (u, pw, true)) →
      ProxyHandler.ServeHTTP p env w r =
        if r.Method = lit "CONNECT" then handleTunneling env w r p.Timeout
        else handleHTTP env w r := by
    intro hg
    have hun := hiff.mpr hg
    unfold ProxyHandler.ServeHTTP
    rw [hun]
    rfl
  have hno : ¬ (Header.index r.Hdr (lit "Proxy-Authorization") ≠ [] ∧
        parseBasicAuth (Header.Get r.Hdr (lit "Proxy-Authorization")) = (u, pw, true)) →
      ProxyHandler.ServeHTTP p env w r =
        (httpError
          { w with header := Header.Set w.header (lit "Proxy-Authenticate") (lit "Basic") }
          (lit "Unauthorized") 407, []) := by
    intro hg
    have hun : unauthorized p r = true := by
      cases h : unauthorized p r
      · exact absurd (hiff.mp h) hg
      · rfl
    unfold ProxyHandler.ServeHTTP
    rw [hun]
    rfl
  refine ⟨⟨?_, ?_⟩, hyes, ?_⟩
  · intro hev
    by_contra hg
    rw [hno hg] at hev
    simp at hev
  · intro hg
    rw [hyes hg]
    exact dispatch_event p env w r
  · intro hg
    rw [hno hg]
    have hs := httpError_sent
      { w with header := Header.Set w.header (lit "Proxy-Authenticate") (lit "Basic") }
      (lit "Unauthorized") 407 hw rfl
    refine ⟨?_, ⟨_, hs, gate_header w.header⟩, ?_, rfl⟩
    · simp only [ResponseWriter.status, hs, Option.map_some']
    · rw [httpError_body]
      rfl

/-- A request with the credentials of the handler is forwarded; a request
with another password and a request without the header get the 407. -/
theorem ServeHTTP_auth_gate_witness :
    ProxyHandler.ServeHTTP aladdinHandler openWorld (freshWriter none)
        (requestWith (lit "GET") [lit "Basic QWxhZGRpbjpvcGVuIHNlc2FtZQ=="]) =
      handleHTTP openWorld (freshWriter none)
        (requestWith (lit "GET") [lit "Basic QWxhZGRpbjpvcGVuIHNlc2FtZQ=="]) ∧
    (ProxyHandler.ServeHTTP aladdinHandler openWorld (freshWriter none)
        (requestWith (lit "GET") [lit "Basic QWxhZGRpbjpPcGVuIHNlc2FtZQ=="])).1.status =
      some 407 ∧
    (ProxyHandler.ServeHTTP aladdinHandler openWorld (freshWriter none)
        (requestWith (lit "CONNECT") [])).2 = [] :=
  ⟨(ServeHTTP_auth_gate aladdinHandler openWorld (freshWriter none)
      (requestWith (lit "GET") [lit "Basic QWxhZGRpbjpvcGVuIHNlc2FtZQ=="])
      (lit "Aladdin") (lit "open sesame") rfl rfl rfl).2.1 (by decide),
   ((ServeHTTP_auth_gate aladdinHandler openWorld (freshWriter none)
      (requestWith (lit "GET") [lit "Basic QWxhZGRpbjpPcGVuIHNlc2FtZQ=="])
      (lit "Aladdin") (lit "open sesame") rfl rfl rfl).2.2 (by decide)).1,
   ((ServeHTTP_auth_gate aladdinHandler openWorld (freshWriter none)
      (requestWith (lit "CONNECT") [])
      (lit "Aladdin") (lit "open sesame") rfl rfl rfl).2.2 (by decide)).2.2.2⟩

/-- C5: with no credentials configured the gate rejects no request, whatever
its `Proxy-Authorization` header holds: `ServeHTTP` does what the handler of
the method does and enters it.  The 407 of the gate is never written; on a
fresh writer the response has status 407 only when `handleHTTP` relays a
response of the destination that has this status. -/
theorem ServeHTTP_auth_disabled (p : ProxyHandler) (env : World) (w : ResponseWriter)
    (r : Request) (hU : p.Username = none) (hP : p.Password = none) :
    unauthorized p r = false ∧
    ProxyHandler.ServeHTTP p env w r =
      (if r.Method = lit "CONNECT" then handleTunneling env w r p.Timeout
        else handleHTTP env w r) ∧
    (∃ e ∈ (ProxyHandler.ServeHTTP p env w r).2,
      e = Event.enterTunneling p.Timeout ∨ e = Event.enterHTTP) ∧
    (w.sent = none → (ProxyHandler.ServeHTTP p env w r).1.status = some 407 →
      r.Method ≠ lit "CONNECT" ∧
        ∃ resp, env.roundTrip r = Except.ok resp ∧ resp.StatusCode = 407) := by
  have hun : unauthorized p r = false := by
    unfold unauthorized
    rw [hU, hP]
  have heq : ProxyHandler.ServeHTTP p env w r =
      (if r.Method = lit "CONNECT" then handleTunneling env w r p.Timeout
        else handleHTTP env w r) := by
    unfold ProxyHandler.ServeHTTP
    rw [hun]
    rfl
  refine ⟨hun, heq, ?_, ?_⟩
  · rw [heq]
    exact dispatch_event p env w r
  · intro hw hst
    rw [heq] at hst
    exact dispatch_407 env w r p.Timeout hw hst

/-- A freshly constructed handler serves a request without the header and a
request with a malformed header. -/
theorem ServeHTTP_auth_disabled_witness :
    ProxyHandler.ServeHTTP (NewProxyHandler 5) closedWorld (freshWriter none)
        (requestWith (lit "CONNECT") []) =
      handleTunneling closedWorld (freshWriter none) (requestWith (lit "CONNECT") [])
        5000000000 ∧
    (ProxyHandler.ServeHTTP (NewProxyHandler 5) openWorld (freshWriter none)
        (requestWith (lit "GET") [lit "Basic ???"])).1.status = some 503 :=
  ⟨(ServeHTTP_auth_disabled (NewProxyHandler 5) closedWorld (freshWriter none)
      (requestWith (lit "CONNECT") []) rfl rfl).2.1,
   by
    rw [(ServeHTTP_auth_disabled (NewProxyHandler 5) openWorld (freshWriter none)
      (requestWith (lit "GET") [lit "Basic ???"]) rfl rfl).2.1]
    decide⟩

/-! ## The tunnel establisher: claims C6, C9 -/

/-- C6, the code as it is: when the dial succeeded and the writer is not a
`Hijacker`, `handleTunneling` on a fresh writer has already sent status 200
(line 63), so the `http.Error` with code 500 only appends its text to the
body; it starts no relay and returns without any `Close` of the upstream
connection. -/
theorem handleTunneling_hijack_unsupported (env : World) (w : ResponseWriter) (r : Request)
    (t : Int) (hd : env.dial r.Host t = none) (hh : w.hijacker = none)
    (hw : w.sent = none) :
    (handleTunneling env w r t).1.status = some 200 ∧
    (handleTunneling env w r t).1.body = w.body ++ lit "Hijacking not supported\n" ∧
    (handleTunneling env w r t).2 = [Event.enterTunneling t, Event.dial r.Host t] ∧
    closeCount Conn.upstream (handleTunneling env w r t).2 = 0 ∧
    (∀ a b, Event.goTransfer a b ∉ (handleTunneling env w r t).2) := by
  have hst := handleTunneling_status env w r t hw
  rw [hd] at hst
  have hh2 : (w.WriteHeader 200).hijacker = none := by
    rw [WriteHeader_hijacker, hh]
  have hb : (w.WriteHeader 200).body = w.body := WriteHeader_body w 200
  have heq : handleTunneling env w r t =
      (httpError (w.WriteHeader 200) (lit "Hijacking not supported") 500,
        [Event.enterTunneling t, Event.dial r.Host t]) := by
    unfold handleTunneling
    simp only [hd, hh2]
  refine ⟨hst, ?_, ?_, ?_, ?_⟩
  · rw [heq, httpError_body, hb]
    rfl
  · rw [heq]
  · rw [heq]
    simp [closeCount]
  · intro a b
    rw [heq]
    simp

/-- The failing input of C6: a CONNECT request, a host that can be dialled and
a writer without `Hijack`. -/
theorem handleTunneling_hijack_unsupported_witness :
    (handleTunneling openWorld (freshWriter none) (requestWith (lit "CONNECT") [])
        5000000000).1.status = some 200 ∧
    closeCount Conn.upstream (handleTunneling openWorld (freshWriter none)
        (requestWith (lit "CONNECT") []) 5000000000).2 = 0 :=
  ⟨(handleTunneling_hijack_unsupported openWorld (freshWriter none)
      (requestWith (lit "CONNECT") []) 5000000000 rfl rfl rfl).1,
   (handleTunneling_hijack_unsupported openWorld (freshWriter none)
      (requestWith (lit "CONNECT") []) 5000000000 rfl rfl rfl).2.2.2.1⟩

/-- C9: when the dial of `r.Host` fails with the error `e`, `handleTunneling`
on a fresh writer answers with status 503 and appends the text of `e` and a
line feed to the body; no status 200 is written, `Hijack` is not called and no
relay is started. -/
theorem handleTunneling_dial_failure (env : World) (w : ResponseWriter) (r : Request)
    (t : Int) (e : GoString) (hd : env.dial r.Host t = some e) (hw : w.sent = none) :
    (handleTunneling env w r t).1.status = some 503 ∧
    (handleTunneling env w r t).1.body = w.body ++ (e ++ [10]) ∧
    (∀ h, (handleTunneling env w r t).1.sent ≠ some (200, h)) ∧
    (handleTunneling env w r t).2 = [Event.enterTunneling t, Event.dial r.Host t] ∧
    Event.hijack ∉ (handleTunneling env w r t).2 ∧
    (∀ a b, Event.goTransfer a b ∉ (handleTunneling env w r t).2) := by
  have heq : handleTunneling env w r t =
      (httpError w e 503, [Event.enterTunneling t, Event.dial r.Host t]) := by
    unfold handleTunneling
    simp only [hd]
  have hs := httpError_sent w e 503 hw rfl
  refine ⟨?_, ?_, ?_, ?_, ?_, ?_⟩
  · rw [heq]
    simp only [ResponseWriter.status, hs, Option.map_some']
  · rw [heq, httpError_body]
  · intro h
    rw [heq]
    simp only [hs]
    intro hc
    simp at hc
  · rw [heq]
  · rw [heq]
    simp
  · intro a b
    rw [heq]
    simp

/-- A CONNECT to a host that cannot be reached, on a writer that could be
hijacked. -/
theorem handleTunneling_dial_failure_witness :
    (handleTunneling closedWorld (freshWriter (some none)) (requestWith (lit "CONNECT") [])
        5000000000).1.status = some 503 ∧
    (handleTunneling closedWorld (freshWriter (some none)) (requestWith (lit "CONNECT") [])
        5000000000).1.body = lit "dial tcp: i/o timeout\n" ∧
    Event.hijack ∉ (handleTunneling closedWorld (freshWriter (some none))
        (requestWith (lit "CONNECT") []) 5000000000).2 :=
  ⟨(handleTunneling_dial_failure closedWorld (freshWriter (some none))
      (requestWith (lit "CONNECT") []) 5000000000 (lit "dial tcp: i/o timeout") rfl rfl).1,
   (handleTunneling_dial_failure closedWorld (freshWriter (some none))
      (requestWith (lit "CONNECT") []) 5000000000 (lit "dial tcp: i/o timeout") rfl rfl).2.1,
   (handleTunneling_dial_failure closedWorld (freshWriter (some none))
      (requestWith (lit "CONNECT") []) 5000000000 (lit "dial tcp: i/o timeout")
      rfl rfl).2.2.2.2.1⟩

/-! ## The stream relay: claims C7, C8 -/

/-- C7 as stated fails: two relays that both meet end of stream at once, run
one after the other, call `Close` twice on the upstream connection and twice on
the client connection. -/
theorem tunnel_close_once_counterexample :
    closeCount Conn.upstream
      (interleave [] (transfer Conn.upstream Conn.client [] [])
        (transfer Conn.client Conn.upstream [] [])) = 2 ∧
    closeCount Conn.client
      (interleave [] (transfer Conn.upstream Conn.client [] [])
        (transfer Conn.client Conn.upstream [] [])) = 2 ∧
    ¬ (closeCount Conn.upstream
        (interleave [] (transfer Conn.upstream Conn.client [] [])
          (transfer Conn.client Conn.upstream [] [])) = 1 ∧
      closeCount Conn.client
        (interleave [] (transfer Conn.upstream Conn.client [] [])
          (transfer Conn.client Conn.upstream [] [])) = 1) := by
  decide

/-- C7, amended: when dial and hijack both succeeded, `handleTunneling` starts
exactly the relays `transfer(upstream, client)` and `transfer(client, upstream)`,
and once both have returned, in whatever order their steps ran and however each
copy ended, `Close` has been called exactly twice on the upstream connection and
exactly twice on the client connection, once by each relay. -/
theorem tunnel_close_twice (env : World) (w : ResponseWriter) (r : Request) (t : Int)
    (hd : env.dial r.Host t = none) (hh : w.hijacker = some none)
    (schedule : List Bool) (reads1 reads2 : List ReadResult)
    (writes1 writes2 : List (Option Nat)) :
    (handleTunneling env w r t).2 =
      [Event.enterTunneling t, Event.dial r.Host t, Event.hijack,
        Event.goTransfer (some Conn.upstream) (some Conn.client),
        Event.goTransfer (some Conn.client) (some Conn.upstream)] ∧
    closeCount Conn.upstream
      (interleave schedule (transfer Conn.upstream Conn.client reads1 writes1)
        (transfer Conn.client Conn.upstream reads2 writes2)) = 2 ∧
    closeCount Conn.client
      (interleave schedule (transfer Conn.upstream Conn.client reads1 writes1)
        (transfer Conn.client Conn.upstream reads2 writes2)) = 2 := by
  have hh2 : (w.WriteHeader 200).hijacker = some none := by
    rw [WriteHeader_hijacker, hh]
  refine ⟨?_, ?_, ?_⟩
  · unfold handleTunneling
    simp only [hd, hh2]
  · unfold closeCount
    rw [count_interleave]
    have h1 := closeCount_transfer Conn.upstream Conn.upstream Conn.client reads1 writes1
    have h2 := closeCount_transfer Conn.upstream Conn.client Conn.upstream reads2 writes2
    unfold closeCount at h1 h2
    rw [h1, h2]
    decide
  · unfold closeCount
    rw [count_interleave]
    have h1 := closeCount_transfer Conn.client Conn.upstream Conn.client reads1 writes1
    have h2 := closeCount_transfer Conn.client Conn.client Conn.upstream reads2 writes2
    unfold closeCount at h1 h2
    rw [h1, h2]
    decide

/-- A tunnel in which the client sends `ping` and then fails, the upstream
answers `pong` and ends, and the steps of the two relays alternate. -/
theorem tunnel_close_twice_witness :
    closeCount Conn.upstream
      (interleave [true, false, true, false]
        (transfer Conn.upstream Conn.client
          [{ chunk := lit "ping", err := none }, { chunk := [], err := some ReadErr.failure }] [])
        (transfer Conn.client Conn.upstream
          [{ chunk := lit "pong", err := some ReadErr.eof }] [])) = 2 ∧
    closeCount Conn.client
      (interleave [true, false, true, false]
        (transfer Conn.upstream Conn.client
          [{ chunk := lit "ping", err := none }, { chunk := [], err := some ReadErr.failure }] [])
        (transfer Conn.client Conn.upstream
          [{ chunk := lit "pong", err := some ReadErr.eof }] [])) = 2 :=
  (tunnel_close_twice openWorld (freshWriter (some none)) (requestWith (lit "CONNECT") [])
    5000000000 rfl rfl [true, false, true, false]
    [{ chunk := lit "ping", err := none }, { chunk := [], err := some ReadErr.failure }]
    [{ chunk := lit "pong", err := some ReadErr.eof }] [] []).2

/-- C8: one call of `transfer(destination, source)`, however the copy ended,
makes exactly two calls of `Close`, the first on `source` and the second on
`destination`; everything before them is the writes of the copy to
`destination`, and no write follows a `Close`.  For two different connections
each is closed exactly once. -/
theorem transfer_release (destination source : Conn) (reads : List ReadResult)
    (writes : List (Option Nat)) :
    (transfer destination source reads writes).filter Event.isClose =
      [Event.close source, Event.close destination] ∧
    (transfer destination source reads writes).takeWhile (fun e => !e.isClose) =
      (ioCopy reads writes).1.map (Event.write destination) ∧
    ((transfer destination source reads writes).dropWhile (fun e => !e.isClose)).all
      (fun e => !e.isWrite) = true ∧
    (destination ≠ source →
      closeCount source (transfer destination source reads writes) = 1 ∧
      closeCount destination (transfer destination source reads writes) = 1) := by
  refine ⟨?_, ?_, ?_, ?_⟩
  · unfold transfer
    rw [List.filter_append, filter_isClose_writes]
    rfl
  · unfold transfer
    exact takeWhile_writes _ _ _ _
  · unfold transfer
    rw [dropWhile_writes]
    rfl
  · intro hne
    rw [closeCount_transfer, closeCount_transfer]
    have h2 : ¬ source = destination := fun h => hne h.symm
    simp [hne, h2]

/-- A copy that ends with end of stream and a copy that ends with a failed
write both close the client and the upstream connection once. -/
theorem transfer_release_witness :
    (closeCount Conn.client (transfer Conn.upstream Conn.client
        [{ chunk := lit "ping", err := some ReadErr.eof }] []) = 1 ∧
      closeCount Conn.upstream (transfer Conn.upstream Conn.client
        [{ chunk := lit "ping", err := some ReadErr.eof }] []) = 1) ∧
    (closeCount Conn.client (transfer Conn.upstream Conn.client
        [{ chunk := lit "ping", err := none }] [some 2]) = 1 ∧
      closeCount Conn.upstream (transfer Conn.upstream Conn.client
        [{ chunk := lit "ping", err := none }] [some 2]) = 1) :=
  ⟨(transfer_release Conn.upstream Conn.client
      [{ chunk := lit "ping", err := some ReadErr.eof }] []).2.2.2 (by decide),
   (transfer_release Conn.upstream Conn.client
      [{ chunk := lit "ping", err := none }] [some 2]).2.2.2 (by decide)⟩

/-! ## The header copy: claim C10 -/

/-- C10: for every header map `src` with pairwise different keys in canonical
form and every `dst`, after `copyHeader(dst, src)` the value list of every key
is its old value list in `dst` followed by its value list in `src`; a key that
`src` does not have keeps its value list; with `dst` empty every key has the
value list it has in `src`, and when no value list of `src` is empty the
result is `src`, entry by entry; visiting the entries of `src` in another order
gives every key the same value list. -/
theorem copyHeader_appends (dst src : Header) (hwf : Header.WF src)
    (hcanon : ∀ kv ∈ src, CanonicalMIMEHeaderKey kv.1 = kv.1) :
    (∀ k, Header.index (copyHeader dst src) k = Header.index dst k ++ Header.index src k) ∧
    (∀ k, k ∉ src.map Prod.fst → Header.index (copyHeader dst src) k = Header.index dst k) ∧
    (∀ k, Header.index (copyHeader [] src) k = Header.index src k) ∧
    ((∀ kv ∈ src, kv.2 ≠ []) → copyHeader [] src = src) ∧
    (∀ src2 : Header, src2.Perm src →
      ∀ k, Header.index (copyHeader dst src2) k = Header.index (copyHeader dst src) k) := by
  refine ⟨index_copyHeader dst src hwf hcanon, ?_, ?_, ?_, ?_⟩
  · intro k hk
    rw [index_copyHeader dst src hwf hcanon, Header.index_eq_nil src k hk, List.append_nil]
  · intro k
    rw [index_copyHeader [] src hwf hcanon]
    rfl
  · intro hne
    have := copyHeader_disjoint [] src hwf hcanon hne (by simp)
    simpa using this
  · intro src2 hp k
    have hwf2 : Header.WF src2 := by
      unfold Header.WF at hwf ⊢
      exact (hp.map Prod.fst).nodup_iff.mpr hwf
    have hcanon2 : ∀ kv ∈ src2, CanonicalMIMEHeaderKey kv.1 = kv.1 :=
      fun kv hkv => hcanon kv (hp.mem_iff.mp hkv)
    rw [index_copyHeader dst src hwf hcanon, index_copyHeader dst src2 hwf2 hcanon2,
      Header.index_perm src2 src hp hwf]

/-- Two `Set-Cookie` values are appended to the one `dst` holds, and
`Content-Type` is left alone. -/
theorem copyHeader_appends_witness :
    Header.index (copyHeader
        [(lit "Set-Cookie", [lit "a=1"]), (lit "Content-Type", [lit "text/html"])]
        [(lit "Set-Cookie", [lit "b=2", lit "c=3"]), (lit "Via", [lit "1.1 p"])])
      (lit "Set-Cookie") = [lit "a=1", lit "b=2", lit "c=3"] ∧
    Header.index (copyHeader
        [(lit "Set-Cookie", [lit "a=1"]), (lit "Content-Type", [lit "text/html"])]
        [(lit "Set-Cookie", [lit "b=2", lit "c=3"]), (lit "Via", [lit "1.1 p"])])
      (lit "Content-Type") = [lit "text/html"] :=
  ⟨(copyHeader_appends
      [(lit "Set-Cookie", [lit "a=1"]), (lit "Content-Type", [lit "text/html"])]
      [(lit "Set-Cookie", [lit "b=2", lit "c=3"]), (lit "Via", [lit "1.1 p"])]
      (by decide) (by decide)).1 (lit "Set-Cookie"),
   (copyHeader_appends
      [(lit "Set-Cookie", [lit "a=1"]), (lit "Content-Type", [lit "text/html"])]
      [(lit "Set-Cookie", [lit "b=2", lit "c=3"]), (lit "Via", [lit "1.1 p"])]
      (by decide) (by decide)).2.1 (lit "Content-Type") (by decide)⟩

/-! ## The HTTP forwarder: claims C11, C12 -/

/-- C11 as stated fails: the destination answers with the status line
`HTTP/1.1 099`, the round trip gives a response with status code 99, and
`w.WriteHeader(99)` panics: the caller's response has no status, and no byte
of the body is copied. -/
theorem handleHTTP_faithful_counterexample :
    (handleHTTP (replyWorld { sampleResponse with StatusCode := 99 }) (freshWriter none)
        (requestWith (lit "GET") [])).1.status = none ∧
    ¬ ((handleHTTP (replyWorld { sampleResponse with StatusCode := 99 }) (freshWriter none)
        (requestWith (lit "GET") [])).1.status = some 99) ∧
    (handleHTTP (replyWorld { sampleResponse with StatusCode := 99 }) (freshWriter none)
        (requestWith (lit "GET") [])).1.body = [] ∧
    (handleHTTP (replyWorld { sampleResponse with StatusCode := 99 }) (freshWriter none)
        (requestWith (lit "GET") [])).2 =
      [Event.enterHTTP, Event.roundTrip, Event.panicked, Event.closeBody] := by
  decide

/-- C11, amended: when the round trip gives the response `resp` with a status
code that `WriteHeader` records as the status of the response (101, or 200 to
999), and a header map with pairwise different keys in canonical form as the
transport delivers them, and the writer is fresh with an empty header map,
`handleHTTP` leaves the status `resp.StatusCode`, a header map, sent and kept,
in which every key has the value list it has in `resp.Header` (and which is
`resp.Header` entry by entry when no value list is empty), and, when the copy
returns no error, a body that is the bytes of `resp.Body`. -/
theorem handleHTTP_faithful (env : World) (w : ResponseWriter) (req : Request)
    (resp : Response) (hr : env.roundTrip req = Except.ok resp)
    (hcode : resp.StatusCode = 101 ∨ (200 ≤ resp.StatusCode ∧ resp.StatusCode ≤ 999))
    (hw : w.sent = none) (hh : w.header = []) (hwf : Header.WF resp.Hdr)
    (hcanon : ∀ kv ∈ resp.Hdr, CanonicalMIMEHeaderKey kv.1 = kv.1) :
    (handleHTTP env w req).1.status = some resp.StatusCode ∧
    (∃ h, (handleHTTP env w req).1.sent = some (resp.StatusCode, h) ∧
      (handleHTTP env w req).1.header = h ∧
      (∀ k, Header.index h k = Header.index resp.Hdr k) ∧
      ((∀ kv ∈ resp.Hdr, kv.2 ≠ []) → h = resp.Hdr)) ∧
    ((ioCopy resp.Body env.clientWrites).2 = false →
      (handleHTTP env w req).1.body = w.body ++ streamBytes resp.Body) ∧
    Event.panicked ∉ (handleHTTP env w req).2 := by
  have hc : finalStatusCode resp.StatusCode = true := by
    unfold finalStatusCode
    exact decide_eq_true hcode
  have hst := handleHTTP_status env w req resp hr hw hc
  have hs : (ResponseWriter.WriteHeader
      { w with header := copyHeader w.header resp.Hdr } resp.StatusCode).sent =
      some (resp.StatusCode, copyHeader w.header resp.Hdr) :=
    WriteHeader_sent _ _ hw hc
  have hhd : (ResponseWriter.WriteHeader
      { w with header := copyHeader w.header resp.Hdr } resp.StatusCode).header =
      copyHeader w.header resp.Hdr := WriteHeader_header _ _
  have hbd : (ResponseWriter.WriteHeader
      { w with header := copyHeader w.header resp.Hdr } resp.StatusCode).body = w.body :=
    WriteHeader_body _ _
  have heq := handleHTTP_ok env w req resp hr (final_not_panics _ _ hc)
  refine ⟨hst, ⟨copyHeader [] resp.Hdr, ?_, ?_, ?_, ?_⟩, ?_, ?_⟩
  · rw [heq]
    simp only
    rw [foldl_Write_sent _ _ _ hs, hh]
  · rw [heq]
    simp only
    rw [foldl_Write_header, hhd, hh]
  · intro k
    rw [index_copyHeader [] resp.Hdr hwf hcanon]
    rfl
  · intro hne
    have := copyHeader_disjoint [] resp.Hdr hwf hcanon hne (by simp)
    simpa using this
  · intro hok
    rw [heq]
    simp only
    rw [foldl_Write_body, hbd, ioCopy_complete _ _ hok]
  · rw [heq]
    simp

/-- The sample response through a fresh writer: status 404, both `Set-Cookie`
values in order, and the whole body. -/
theorem handleHTTP_faithful_witness :
    (handleHTTP (replyWorld sampleResponse) (freshWriter none)
        (requestWith (lit "GET") [])).1.status = some 404 ∧
    (handleHTTP (replyWorld sampleResponse) (freshWriter none)
        (requestWith (lit "GET") [])).1.body = lit "not found" ∧
    Header.index (handleHTTP (replyWorld sampleResponse) (freshWriter none)
        (requestWith (lit "GET") [])).1.header (lit "Set-Cookie") = [lit "a=1", lit "b=2"] := by
  have h := handleHTTP_faithful (replyWorld sampleResponse) (freshWriter none)
    (requestWith (lit "GET") []) sampleResponse rfl (by decide) rfl rfl (by decide) (by decide)
  refine ⟨h.1, ?_, ?_⟩
  · have hb := h.2.2.1 (by decide)
    rw [hb]
    decide
  · obtain ⟨hd, _, h2, h3, _⟩ := h.2.1
    rw [h2, h3]
    decide

/-- C12: when the round trip fails with the error `e`, `handleHTTP` on a fresh
writer answers with status 503 and appends the text of `e` and a line feed to
the body; the header map is the one `http.Error` leaves (no value is added
under any other key than its content headers), and the function returns after
the round trip without any event on a response body. -/
theorem handleHTTP_transport_failure (env : World) (w : ResponseWriter) (req : Request)
    (e : GoString) (hr : env.roundTrip req = Except.error e) (hw : w.sent = none) :
    (handleHTTP env w req).1.status = some 503 ∧
    (handleHTTP env w req).1.body = w.body ++ (e ++ [10]) ∧
    (handleHTTP env w req).1 = httpError w e 503 ∧
    (∀ k, k ≠ lit "Content-Length" → k ≠ lit "Content-Type" →
      k ≠ lit "X-Content-Type-Options" →
      Header.index (handleHTTP env w req).1.header k = Header.index w.header k) ∧
    (handleHTTP env w req).2 = [Event.enterHTTP, Event.roundTrip] ∧
    Event.closeBody ∉ (handleHTTP env w req).2 := by
  have heq : handleHTTP env w req =
      (httpError w e 503, [Event.enterHTTP, Event.roundTrip]) :=
    handleHTTP_error env w req e hr
  have hst : (handleHTTP env w req).1.status = some 503 := by
    rw [heq]
    simp only [ResponseWriter.status, httpError_sent w e 503 hw rfl, Option.map_some']
  refine ⟨hst, ?_, ?_, ?_, ?_, ?_⟩
  · rw [heq, httpError_body]
  · rw [heq]
  · intro k h1 h2 h3
    rw [heq]
    have hh : (httpError w e 503).header =
        Header.Set (Header.Set (Header.Del w.header (lit "Content-Length"))
          (lit "Content-Type") (lit "text/plain; charset=utf-8"))
          (lit "X-Content-Type-Options") (lit "nosniff") := by
      unfold httpError
      simp only
      rw [Write_header, WriteHeader_header]
    simp only
    rw [hh]
    unfold Header.Set Header.Del
    have c1 : CanonicalMIMEHeaderKey (lit "Content-Length") = lit "Content-Length" := by decide
    have c2 : CanonicalMIMEHeaderKey (lit "Content-Type") = lit "Content-Type" := by decide
    have c3 : CanonicalMIMEHeaderKey (lit "X-Content-Type-Options") =
        lit "X-Content-Type-Options" := by decide
    rw [c1, c2, c3, Header.index_store_ne _ _ _ _ (Ne.symm h3),
      Header.index_store_ne _ _ _ _ (Ne.symm h2), Header.index_delete_ne _ _ _ (Ne.symm h1)]
  · rw [heq]
  · rw [heq]
    simp

/-- A refused connection, on a fresh writer. -/
theorem handleHTTP_transport_failure_witness :
    (handleHTTP openWorld (freshWriter none) (requestWith (lit "GET") [])).1.status =
      some 503 ∧
    (handleHTTP openWorld (freshWriter none) (requestWith (lit "GET") [])).1.body =
      lit "connection refused\n" ∧
    Event.closeBody ∉ (handleHTTP openWorld (freshWriter none)
      (requestWith (lit "GET") [])).2 :=
  ⟨(handleHTTP_transport_failure openWorld (freshWriter none) (requestWith (lit "GET") [])
      (lit "connection refused") rfl rfl).1,
   (handleHTTP_transport_failure openWorld (freshWriter none) (requestWith (lit "GET") [])
      (lit "connection refused") rfl rfl).2.1,
   (handleHTTP_transport_failure openWorld (freshWriter none) (requestWith (lit "GET") [])
      (lit "connection refused") rfl rfl).2.2.2.2.2⟩

/-! ## The dispatcher and the upstream body: claims C13, C14 -/

/-- C13: for every request that passes the auth gate, `ServeHTTP` does what
`handleTunneling` does with the configured `Timeout` (which is the timeout of
the dial) when the method is exactly `CONNECT`, and what `handleHTTP` does for
every other method; the trace has the entry of `handleTunneling` exactly for
`CONNECT`, the entry of `handleHTTP` exactly for the other methods, and one
entry of a handler in all. -/
theorem ServeHTTP_dispatch (p : ProxyHandler) (env : World) (w : ResponseWriter)
    (r : Request) (hgate : unauthorized p r = false) :
    (r.Method = lit "CONNECT" →
      ProxyHandler.ServeHTTP p env w r = handleTunneling env w r p.Timeout ∧
      Event.dial r.Host p.Timeout ∈ (ProxyHandler.ServeHTTP p env w r).2) ∧
    (r.Method ≠ lit "CONNECT" → ProxyHandler.ServeHTTP p env w r = handleHTTP env w r) ∧
    ((∃ t, Event.enterTunneling t ∈ (ProxyHandler.ServeHTTP p env w r).2) ↔
      r.Method = lit "CONNECT") ∧
    (Event.enterHTTP ∈ (ProxyHandler.ServeHTTP p env w r).2 ↔ r.Method ≠ lit "CONNECT") ∧
    ((ProxyHandler.ServeHTTP p env w r).2.filter Event.isEnter).length = 1 ∧
    (ProxyHandler.ServeHTTP p env w r).2.filter Event.isEnter =
      [if r.Method = lit "CONNECT" then Event.enterTunneling p.Timeout else Event.enterHTTP] := by
  have heq : ProxyHandler.ServeHTTP p env w r =
      (if r.Method = lit "CONNECT" then handleTunneling env w r p.Timeout
        else handleHTTP env w r) := by
    unfold ProxyHandler.ServeHTTP
    rw [hgate]
    rfl
  have hfil : (ProxyHandler.ServeHTTP p env w r).2.filter Event.isEnter =
      [if r.Method = lit "CONNECT" then Event.enterTunneling p.Timeout
        else Event.enterHTTP] := by
    rw [heq]
    by_cases hm : r.Method = lit "CONNECT"
    · rw [if_pos hm, if_pos hm]
      exact (handleTunneling_enter env w r p.Timeout).1
    · rw [if_neg hm, if_neg hm]
      exact handleHTTP_enter env w r
  have hmem : ∀ e, e.isEnter = true →
      (e ∈ (ProxyHandler.ServeHTTP p env w r).2 ↔
        e = (if r.Method = lit "CONNECT" then Event.enterTunneling p.Timeout
          else Event.enterHTTP)) := by
    intro e he
    have h1 : e ∈ (ProxyHandler.ServeHTTP p env w r).2.filter Event.isEnter ↔
        e ∈ (ProxyHandler.ServeHTTP p env w r).2 := by
      rw [List.mem_filter]
      exact ⟨fun h => h.1, fun h => ⟨h, he⟩⟩
    rw [← h1, hfil, List.mem_singleton]
  refine ⟨?_, ?_, ?_, ?_, ?_, hfil⟩
  · intro hm
    rw [heq, if_pos hm]
    exact ⟨rfl, (handleTunneling_enter env w r p.Timeout).2⟩
  · intro hm
    rw [heq, if_neg hm]
  · constructor
    · rintro ⟨t, ht⟩
      by_contra hm
      have := (hmem (Event.enterTunneling t) rfl).mp ht
      rw [if_neg hm] at this
      exact Event.noConfusion this
    · intro hm
      refine ⟨p.Timeout, (hmem (Event.enterTunneling p.Timeout) rfl).mpr ?_⟩
      rw [if_pos hm]
  · constructor
    · intro ht hm
      have := (hmem Event.enterHTTP rfl).mp ht
      rw [if_pos hm] at this
      exact Event.noConfusion this
    · intro hm
      refine (hmem Event.enterHTTP rfl).mpr ?_
      rw [if_neg hm]
  · rw [hfil]
    rfl

/-- A CONNECT and a lower-case `connect` through a handler without
credentials: the first is tunnelled, the second is forwarded. -/
theorem ServeHTTP_dispatch_witness :
    ProxyHandler.ServeHTTP (NewProxyHandler 5) closedWorld (freshWriter none)
        (requestWith (lit "CONNECT") []) =
      handleTunneling closedWorld (freshWriter none) (requestWith (lit "CONNECT") [])
        5000000000 ∧
    ProxyHandler.ServeHTTP (NewProxyHandler 5) closedWorld (freshWriter none)
        (requestWith (lit "connect") []) =
      handleHTTP closedWorld (freshWriter none) (requestWith (lit "connect") []) :=
  ⟨((ServeHTTP_dispatch (NewProxyHandler 5) closedWorld (freshWriter none)
      (requestWith (lit "CONNECT") []) rfl).1 (by decide)).1,
   (ServeHTTP_dispatch (NewProxyHandler 5) closedWorld (freshWriter none)
      (requestWith (lit "connect") []) rfl).2.1 (by decide)⟩

/-- C14: whenever the round trip returned a response, `handleHTTP` closes the
body of the response exactly once, as its last step, whatever the reads of the
body and the writes to the caller do. -/
theorem handleHTTP_body_closed (env : World) (w : ResponseWriter) (req : Request)
    (resp : Response) (hr : env.roundTrip req = Except.ok resp) :
    (handleHTTP env w req).2.count Event.closeBody = 1 ∧
    (handleHTTP env w req).2.getLast? = some Event.closeBody := by
  cases hp : ResponseWriter.WriteHeaderPanics
      { w with header := copyHeader w.header resp.Hdr } resp.StatusCode with
  | true =>
    rw [handleHTTP_panics env w req resp hr hp]
    simp only
    exact ⟨by decide, rfl⟩
  | false =>
    rw [handleHTTP_ok env w req resp hr hp]
    simp only
    exact ⟨by decide, rfl⟩

/-- A body whose second read fails and a caller whose first write is short:
the body is closed once in both worlds. -/
theorem handleHTTP_body_closed_witness :
    (handleHTTP
        (replyWorld { sampleResponse with
          Body := [{ chunk := lit "not ", err := none }, { chunk := [], err := some ReadErr.failure }] })
        (freshWriter none) (requestWith (lit "GET") [])).2.count Event.closeBody = 1 ∧
    (handleHTTP
        { replyWorld sampleResponse with clientWrites := [some 2] }
        (freshWriter none) (requestWith (lit "GET") [])).2.count Event.closeBody = 1 :=
  ⟨(handleHTTP_body_closed
      (replyWorld { sampleResponse with
        Body := [{ chunk := lit "not ", err := none }, { chunk := [], err := some ReadErr.failure }] })
      (freshWriter none) (requestWith (lit "GET") []) _ rfl).1,
   (handleHTTP_body_closed
      { replyWorld sampleResponse with clientWrites := [some 2] }
      (freshWriter none) (requestWith (lit "GET") []) _ rfl).1⟩

/-! ## `equalFold`: claim C15 -/

/-- C15: `equalFold s t` holds if and only if `s` and `t` have the same length
and at every index the two bytes are equal after the folding of `A`..`Z` to
`a`..`z` that leaves every other byte unchanged; `lower` is this folding, it
keeps a byte a byte and leaves every byte from `0x80` on unchanged; `equalFold`
is reflexive, symmetric and transitive. -/
theorem equalFold_ascii (s t u : GoString) :
    (equalFold s t = true ↔
      (s.length = t.length ∧
        ∀ i, i < s.length → asciiFoldSpec (s.getD i 0) = asciiFoldSpec (t.getD i 0))) ∧
    (∀ b, lower b = asciiFoldSpec b) ∧
    (∀ b, b < 256 → lower b < 256) ∧
    (∀ b, 128 ≤ b → lower b = b) ∧
    equalFold s s = true ∧
    (equalFold s t = true → equalFold t s = true) ∧
    (equalFold s t = true → equalFold t u = true → equalFold s u = true) := by
  refine ⟨?_, lower_eq_asciiFoldSpec, ?_, ?_, ?_, ?_, ?_⟩
  · rw [equalFold_iff_map, map_lower_iff_index]
  · intro b hb
    unfold lower
    split <;> omega
  · intro b hb
    unfold lower
    split
    · omega
    · rfl
  · rw [equalFold_iff_map]
  · rw [equalFold_iff_map, equalFold_iff_map]
    exact fun h => h.symm
  · rw [equalFold_iff_map, equalFold_iff_map, equalFold_iff_map]
    exact fun h1 h2 => h1.trans h2

/-- Three spellings of the scheme are pairwise equal under `equalFold`, and two
bytes above `0x7f` that differ by 32 are not folded together. -/
theorem equalFold_ascii_witness :
    equalFold (lit "BASIC ") (lit "basic ") = true ∧
    equalFold [200, 65] [232, 97] = false :=
  ⟨(equalFold_ascii (lit "BASIC ") (lit "Basic ") (lit "basic ")).2.2.2.2.2.2
      (by decide) (by decide),
   by
    have h := (equalFold_ascii [200, 65] [232, 97] []).1
    cases hc : equalFold [200, 65] [232, 97]
    · rfl
    · exact absurd (h.mp hc) (by decide)⟩

/-! ## The failed hijack, half a pair of credentials, the constructor:
claims C16, C17, C18 -/

/-- C16, the code as it is: when the dial succeeded and `Hijack` returns an
error, `handleTunneling` goes on after the `http.Error` of line 75 and starts
both relays, each with the nil client connection. -/
theorem handleTunneling_hijack_error (env : World) (w : ResponseWriter) (r : Request)
    (t : Int) (e : GoString) (hd : env.dial r.Host t = none)
    (hh : w.hijacker = some (some e)) :
    (handleTunneling env w r t).2 =
      [Event.enterTunneling t, Event.dial r.Host t, Event.hijack,
        Event.goTransfer (some Conn.upstream) none,
        Event.goTransfer none (some Conn.upstream)] ∧
    ((handleTunneling env w r t).2.filter Event.isGoTransfer).length = 2 ∧
    Event.goTransfer (some Conn.upstream) none ∈ (handleTunneling env w r t).2 ∧
    Event.goTransfer none (some Conn.upstream) ∈ (handleTunneling env w r t).2 := by
  have hh2 : (w.WriteHeader 200).hijacker = some (some e) := by
    rw [WriteHeader_hijacker, hh]
  have heq : (handleTunneling env w r t).2 =
      [Event.enterTunneling t, Event.dial r.Host t, Event.hijack,
        Event.goTransfer (some Conn.upstream) none,
        Event.goTransfer none (some Conn.upstream)] := by
    unfold handleTunneling
    simp only [hd, hh2]
  rw [heq]
  refine ⟨rfl, rfl, ?_, ?_⟩ <;> simp

/-- The failing input of C16: a CONNECT, a host that can be dialled and a
writer whose `Hijack` fails. -/
theorem handleTunneling_hijack_error_witness :
    Event.goTransfer (some Conn.upstream) none ∈
      (handleTunneling openWorld (freshWriter (some (some (lit "http: connection has been hijacked"))))
        (requestWith (lit "CONNECT") []) 5000000000).2 :=
  (handleTunneling_hijack_error openWorld
    (freshWriter (some (some (lit "http: connection has been hijacked"))))
    (requestWith (lit "CONNECT") []) 5000000000 (lit "http: connection has been hijacked")
    rfl rfl).2.2.1

/-- C17: a handler with exactly one of `Username` and `Password` set makes no
credential check: the gate condition is false for every request, `ServeHTTP`
does what it does for the same handler without credentials, which is what the
handler of the method does, and enters that handler; the 407 of the gate is
never written (on a fresh writer a status 407 is the relayed status of the
destination). -/
theorem ServeHTTP_half_configured (p : ProxyHandler) (env : World) (w : ResponseWriter)
    (r : Request)
    (h : (p.Username = none ∧ p.Password ≠ none) ∨ (p.Username ≠ none ∧ p.Password = none)) :
    unauthorized p r = false ∧
    ProxyHandler.ServeHTTP p env w r =
      ProxyHandler.ServeHTTP { p with Username := none, Password := none } env w r ∧
    ProxyHandler.ServeHTTP p env w r =
      (if r.Method = lit "CONNECT" then handleTunneling env w r p.Timeout
        else handleHTTP env w r) ∧
    (∃ e ∈ (ProxyHandler.ServeHTTP p env w r).2,
      e = Event.enterTunneling p.Timeout ∨ e = Event.enterHTTP) ∧
    (w.sent = none → (ProxyHandler.ServeHTTP p env w r).1.status = some 407 →
      r.Method ≠ lit "CONNECT" ∧
        ∃ resp, env.roundTrip r = Except.ok resp ∧ resp.StatusCode = 407) := by
  have hun : unauthorized p r = false :=
    unauthorized_of_unset p r (h.elim (fun a => Or.inl a.1) (fun a => Or.inr a.2))
  have heq : ProxyHandler.ServeHTTP p env w r =
      (if r.Method = lit "CONNECT" then handleTunneling env w r p.Timeout
        else handleHTTP env w r) := by
    unfold ProxyHandler.ServeHTTP
    rw [hun]
    rfl
  have heq0 : ProxyHandler.ServeHTTP { p with Username := none, Password := none } env w r =
      (if r.Method = lit "CONNECT" then handleTunneling env w r p.Timeout
        else handleHTTP env w r) := by
    unfold ProxyHandler.ServeHTTP
    rw [unauthorized_of_unset _ r (Or.inl rfl)]
    rfl
  refine ⟨hun, by rw [heq, heq0], heq, ?_, ?_⟩
  · rw [heq]
    exact dispatch_event p env w r
  · intro hw hst
    rw [heq] at hst
    exact dispatch_407 env w r p.Timeout hw hst

/-- A handler with a user name and no password forwards a request that has no
`Proxy-Authorization` header at all. -/
theorem ServeHTTP_half_configured_witness :
    ProxyHandler.ServeHTTP { aladdinHandler with Password := none } openWorld
        (freshWriter none) (requestWith (lit "GET") []) =
      handleHTTP openWorld (freshWriter none) (requestWith (lit "GET") []) :=
  (ServeHTTP_half_configured { aladdinHandler with Password := none } openWorld
    (freshWriter none) (requestWith (lit "GET") [])
    (Or.inr ⟨by decide, rfl⟩)).2.2.1

/-- C18: for `timeoutSeconds` between `-9223372036` and `9223372036` the
`Timeout` of `NewProxyHandler(timeoutSeconds)` is `timeoutSeconds * 10^9`; for
every `timeoutSeconds` it is a signed 64-bit number congruent to that product
modulo `2^64`; `Username` and `Password` are unset, `LogAuth` and `LogHeaders`
are false, and the handler passes every request to the handler of its
method. -/
theorem NewProxyHandler_result (timeoutSeconds : Int) :
    ((-9223372036 ≤ timeoutSeconds ∧ timeoutSeconds ≤ 9223372036) →
      (NewProxyHandler timeoutSeconds).Timeout = timeoutSeconds * 1000000000) ∧
    (((NewProxyHandler timeoutSeconds).Timeout - timeoutSeconds * 1000000000) % 2 ^ 64 = 0 ∧
      -(2 ^ 63) ≤ (NewProxyHandler timeoutSeconds).Timeout ∧
      (NewProxyHandler timeoutSeconds).Timeout < 2 ^ 63) ∧
    (NewProxyHandler timeoutSeconds).Username = none ∧
    (NewProxyHandler timeoutSeconds).Password = none ∧
    (NewProxyHandler timeoutSeconds).LogAuth = false ∧
    (NewProxyHandler timeoutSeconds).LogHeaders = false ∧
    (∀ r, unauthorized (NewProxyHandler timeoutSeconds) r = false) ∧
    (∀ env w r, ProxyHandler.ServeHTTP (NewProxyHandler timeoutSeconds) env w r =
      (if r.Method = lit "CONNECT" then
        handleTunneling env w r (NewProxyHandler timeoutSeconds).Timeout
        else handleHTTP env w r)) := by
  have hun : ∀ r, unauthorized (NewProxyHandler timeoutSeconds) r = false :=
    fun r => unauthorized_of_unset _ r (Or.inl rfl)
  refine ⟨?_, ⟨?_, ?_, ?_⟩, rfl, rfl, rfl, rfl, hun, ?_⟩
  · intro hb
    simp only [NewProxyHandler, wrapInt64]
    omega
  · simp only [NewProxyHandler, wrapInt64]
    omega
  · simp only [NewProxyHandler, wrapInt64]
    omega
  · simp only [NewProxyHandler, wrapInt64]
    omega
  · intro env w r
    unfold ProxyHandler.ServeHTTP
    rw [hun r]
    rfl

/-- Five seconds, the largest number of seconds that fits, and the next one,
whose product wraps around to a negative duration. -/
theorem NewProxyHandler_result_witness :
    (NewProxyHandler 5).Timeout = 5000000000 ∧
    (NewProxyHandler 9223372036).Timeout = 9223372036000000000 ∧
    (NewProxyHandler 9223372037).Timeout = -9223372036709551616 :=
  ⟨(NewProxyHandler_result 5).1 (by decide),
   (NewProxyHandler_result 9223372036).1 (by decide),
   by decide⟩

end Proxy
